import Mathlib

/-!
Verification of the BATCOMPUTER ML-Agent model-lifecycle and task-orchestration
layer (src/ml_agent/models.py and src/ml_agent/tasks.py) against its
natural-language specification.

Python dictionaries (string-keyed, insertion-ordered) are embedded as
association lists, machine floats for timestamps and durations as rationals,
and the external machine-learning libraries (transformers, diffusers, torch)
as explicit outcome parameters: every call whose result depends on the outside
world takes the outcome of that call as an argument.  Mutable Python objects
aliased by several containers (a task object stored in `tasks`, `running_tasks`
and `completed_tasks` at once) are embedded as a single keyed store plus
key sets for the secondary containers.
-/

namespace MLAgent

/-! ## Definitions -/

/-- Python `s.startswith(p)`, at character level. -/
def pyStartsWith (s p : String) : Bool := decide (s.data.take p.data.length = p.data)

/-- Python `s[len(p):]` (drop `len(p)` characters), at character level. -/
def pyDropPfx (s p : String) : String := String.mk (s.data.drop p.data.length)

/-- Python `s.strip()`: remove leading and trailing whitespace. -/
def pyStrip (s : String) : String :=
  String.mk (((s.data.dropWhile Char.isWhitespace).reverse.dropWhile
    Char.isWhitespace).reverse)

instance {ε α : Type} [DecidableEq ε] [DecidableEq α] : DecidableEq (Except ε α) :=
  fun a b =>
    match a, b with
    | .error e, .error f =>
      if h : e = f then isTrue (by rw [h]) else isFalse (by intro hh; cases hh; exact h rfl)
    | .error _, .ok _ => isFalse (by intro hh; cases hh)
    | .ok _, .error _ => isFalse (by intro hh; cases hh)
    | .ok x, .ok y =>
      if h : x = y then isTrue (by rw [h]) else isFalse (by intro hh; cases hh; exact h rfl)

def dlookup {α : Type} (k : String) : List (String × α) → Option α
  | [] => none
  | (k', v) :: rest => if k' = k then some v else dlookup k rest

def dinsert {α : Type} (k : String) (v : α) : List (String × α) → List (String × α)
  | [] => [(k, v)]
  | (k', v') :: rest => if k' = k then (k, v) :: rest else (k', v') :: dinsert k v rest

def derase {α : Type} (k : String) (d : List (String × α)) : List (String × α) :=
  d.filter (fun p => ! decide (p.1 = k))

/-- Tag selecting the concrete `BaseModel` subclass, as chosen by
`ModelManager._create_model` from `ModelConfig.model_type`. -/
inductive ModelKind
  | text
  | image
  | multimodal
deriving DecidableEq, Repr

/-- The fields of `config.ModelConfig` that the model-management layer reads.
Sampling parameters (temperature, top-p, top-k, max length, batch size) only
flow into external library calls and are not modelled. -/
structure ModelConfig where
  name : String
  model_type : String
  model_path : String := ""
  device : String := "auto"
  precision : String := "float16"
deriving DecidableEq, Repr

/-- State of a `BaseModel` instance (models.py lines 32-77).  The
`model` / `tokenizer` / `pipeline` handles are external library objects; the
bookkeeping the manager reads is `is_loaded`, `load_time` and `last_used`. -/
structure BaseModel where
  kind : ModelKind
  config : ModelConfig
  is_loaded : Bool := false
  load_time : Option ℤ := none
  last_used : Option ℤ := none
deriving DecidableEq, Repr

/-- `BaseModel.unload`: drops the external handles, clears `is_loaded`. -/
def BaseModel.unload (m : BaseModel) : BaseModel :=
  { m with is_loaded := false }

/-- `BaseModel.update_usage`: stamps `last_used` with the current time. -/
def BaseModel.update_usage (m : BaseModel) (now : ℤ) : BaseModel :=
  { m with last_used := some now }

/-- Outcomes of the external-library calls made during one generation call:
`loadOutcome` is the outcome of the `load()` body (tokenizer/weights/pipeline
construction), `genOutcome` the outcome of the underlying pipeline call, `now`
the `time.time()` value read by `update_usage`, `loadDuration` the measured
load time. -/
structure GenEnv where
  now : ℤ
  loadDuration : ℤ := 0
  loadOutcome : Except String Unit
  genOutcome : Except String String

/-- `TextModel.load` (models.py lines 83-127): on success sets `is_loaded` and
`load_time`; on failure the exception is re-raised before `is_loaded` is set,
so a failed load leaves the instance unloaded. -/
def TextModel.load (m : BaseModel) (env : GenEnv) : Except String BaseModel :=
  match env.loadOutcome with
  | .error e => .error e
  | .ok _ => .ok { m with is_loaded := true, load_time := some env.loadDuration }

/-- `TextModel.generate_text` (models.py lines 129-159): loads lazily when not
loaded, stamps `last_used`, runs the pipeline, and strips the input prompt
from the front of the generated text when present. -/
def TextModel.generate_text (m : BaseModel) (prompt : String) (env : GenEnv) :
    Except String (BaseModel × String) :=
  match (if m.is_loaded then .ok m else TextModel.load m env : Except String BaseModel) with
  | .error e => .error e
  | .ok m1 =>
    let m2 := m1.update_usage env.now
    match env.genOutcome with
    | .error e => .error e
    | .ok generated =>
      let out := if pyStartsWith generated prompt
                 then pyStrip (pyDropPfx generated prompt)
                 else generated
      .ok (m2, out)

/-- `ModelManager` state (models.py lines 289-296): the active dict `models`,
the cached dict `model_cache`, and the fixed ceiling `max_cache_size = 5`. -/
structure ModelManager where
  models : List (String × BaseModel) := []
  model_cache : List (String × BaseModel) := []
  max_cache_size : Nat := 5
deriving DecidableEq, Repr

/-- `ModelManager._create_model` (models.py lines 324-333): dispatch on the
`model_type` string; unknown types raise `ValueError`. -/
def ModelManager.create_model (config : ModelConfig) : Except String BaseModel :=
  if config.model_type = "text" then .ok { kind := .text, config := config }
  else if config.model_type = "image" then .ok { kind := .image, config := config }
  else if config.model_type = "multimodal" then .ok { kind := .multimodal, config := config }
  else .error ("Unknown model type: " ++ config.model_type)

/-- The eviction key `x[1].last_used or 0`: an absent (`None`) `last_used` —
and, by Python falsiness, a `last_used` of exactly `0.0` — counts as `0`. -/
def lastUsedKey (m : BaseModel) : ℤ := m.last_used.getD 0

/-- The fold performed by Python `min(items, key=...)`: the running best is
replaced only when a strictly smaller key appears, so the first entry (in
dict insertion order) wins ties. -/
def minGo (best : String × BaseModel) : List (String × BaseModel) → String × BaseModel
  | [] => best
  | p :: rest => if lastUsedKey p.2 < lastUsedKey best.2 then minGo p rest else minGo best rest

/-- `min(self.models.items(), key=lambda x: x[1].last_used or 0)`;
`none` exactly when the dict is empty (where Python `min` would raise). -/
def minByLastUsed : List (String × BaseModel) → Option (String × BaseModel)
  | [] => none
  | p :: rest => some (minGo p rest)

/-- `ModelManager._evict_least_used` (models.py lines 335-354): no-op on an
empty active dict; otherwise moves the least-recently-used entry into
`model_cache` and unloads it (the source unloads the shared object after
inserting it into the cache, so the cached entry is the unloaded one). -/
def ModelManager.evict_least_used (mm : ModelManager) : ModelManager :=
  match minByLastUsed mm.models with
  | none => mm
  | some (model_name, model) =>
    { mm with
      model_cache := dinsert model_name model.unload mm.model_cache,
      models := derase model_name mm.models }

/-- `ModelManager.get_model` (models.py lines 298-322).  `cfgModels` is
`self.config.models`.  Unknown names and unknown model types raise
`ValueError`; otherwise returns the updated manager and the model returned to
the caller. -/
def ModelManager.get_model (mm : ModelManager) (cfgModels : List (String × ModelConfig))
    (model_name : String) : Except String (ModelManager × BaseModel) :=
  match dlookup model_name cfgModels with
  | none => .error ("Model " ++ model_name ++ " not found in configuration")
  | some model_config =>
    match dlookup model_name mm.models with
    | some m => .ok (mm, m)
    | none =>
      match dlookup model_name mm.model_cache with
      | some m =>
        .ok ({ mm with model_cache := derase model_name mm.model_cache,
                       models := dinsert model_name m mm.models }, m)
      | none =>
        match ModelManager.create_model model_config with
        | .error e => .error e
        | .ok model =>
          let mm1 := if mm.max_cache_size ≤ mm.models.length
                     then mm.evict_least_used else mm
          .ok ({ mm1 with models := dinsert model_name model mm1.models }, model)

/-- `ModelManager.unload_model` (models.py lines 356-362): unloads and removes
an active model; no-op when the name is not active. -/
def ModelManager.unload_model (mm : ModelManager) (model_name : String) : ModelManager :=
  match dlookup model_name mm.models with
  | some _ => { mm with models := derase model_name mm.models }
  | none => mm

/-- `ModelManager.unload_all` (models.py lines 364-374): unloads every active
model and clears the cache. -/
def ModelManager.unload_all (mm : ModelManager) : ModelManager :=
  { mm with models := [], model_cache := [] }

/-- The condition under which `optimize_memory` unloads a model:
`model.last_used and now - model.last_used > 300` (Python truthiness: an
absent or `0.0` timestamp never triggers the idle unload). -/
def staleModel (now : ℤ) (m : BaseModel) : Bool :=
  match m.last_used with
  | none => false
  | some t => decide (¬ t = 0) && decide (300 < now - t)

/-- `ModelManager.optimize_memory` (models.py lines 405-415): unloads every
active model idle for more than the fixed 300-second threshold.  The source
iterates over a snapshot of the keys calling `unload_model` on each stale
name; since each call removes exactly that key, the loop is a filter. -/
def ModelManager.optimize_memory (mm : ModelManager) (now : ℤ) : ModelManager :=
  { mm with models := mm.models.filter (fun p => ! staleModel now p.2) }

/-- The manager state component of a `get_model` call, `none` when the call
raises. -/
def get_model_state (mm : ModelManager) (cfgModels : List (String × ModelConfig))
    (model_name : String) : Option ModelManager :=
  (mm.get_model cfgModels model_name).toOption.map Prod.fst

/-- One mutating `ModelManager` operation. -/
inductive MStep (cfgModels : List (String × ModelConfig)) : ModelManager → ModelManager → Prop
  | get (mm mm' : ModelManager) (model_name : String)
      (h : get_model_state mm cfgModels model_name = some mm') : MStep cfgModels mm mm'
  | unload (mm : ModelManager) (model_name : String) :
      MStep cfgModels mm (mm.unload_model model_name)
  | unloadAll (mm : ModelManager) : MStep cfgModels mm mm.unload_all
  | optimize (mm : ModelManager) (now : ℤ) : MStep cfgModels mm (mm.optimize_memory now)

/-- The freshly constructed manager of `ModelManager.__init__`. -/
def initialManager : ModelManager := {}

/-- Manager states reachable by any sequence of `ModelManager` operations. -/
def MReach (cfgModels : List (String × ModelConfig)) (mm : ModelManager) : Prop :=
  Relation.ReflTransGen (MStep cfgModels) initialManager mm

/-- No model name is simultaneously active and cached. -/
def disjointSets (mm : ModelManager) : Prop :=
  ∀ k, (dlookup k mm.models).isSome → dlookup k mm.model_cache = none

/-- The `ModelManager` operations with `get_model` restricted to names that
are not currently cached, i.e. excluding the cached-to-active promotion
path of models.py lines 308-311. -/
inductive MStepNP (cfgModels : List (String × ModelConfig)) :
    ModelManager → ModelManager → Prop
  | get (mm mm' : ModelManager) (model_name : String)
      (hnc : dlookup model_name mm.model_cache = none)
      (h : get_model_state mm cfgModels model_name = some mm') : MStepNP cfgModels mm mm'
  | unload (mm : ModelManager) (model_name : String) :
      MStepNP cfgModels mm (mm.unload_model model_name)
  | unloadAll (mm : ModelManager) : MStepNP cfgModels mm mm.unload_all
  | optimize (mm : ModelManager) (now : ℤ) : MStepNP cfgModels mm (mm.optimize_memory now)

/-- Manager states reachable without ever taking the promotion path. -/
def MReachNP (cfgModels : List (String × ModelConfig)) (mm : ModelManager) : Prop :=
  Relation.ReflTransGen (MStepNP cfgModels) initialManager mm

/-- The ceiling invariant: the fixed ceiling is 5 and the active dict holds
at most 5 models. -/
def ceilingInv (mm : ModelManager) : Prop :=
  mm.max_cache_size = 5 ∧ mm.models.length ≤ 5

/-- A text-model configuration named `n`. -/
def tcfg (n : String) : ModelConfig := { name := n, model_type := "text" }

/-- An agent configuration with six text models. -/
def cfg6 : List (String × ModelConfig) :=
  [("m1", tcfg "m1"), ("m2", tcfg "m2"), ("m3", tcfg "m3"),
   ("m4", tcfg "m4"), ("m5", tcfg "m5"), ("m6", tcfg "m6")]

/-- Run one `get_model` call for its state effect (identity when it raises). -/
def mmRun (cfgModels : List (String × ModelConfig)) (mm : ModelManager)
    (model_name : String) : ModelManager :=
  match get_model_state mm cfgModels model_name with
  | some mm' => mm'
  | none => mm

def mmS1 : ModelManager := mmRun cfg6 initialManager "m1"

def mmS2 : ModelManager := mmRun cfg6 mmS1 "m2"

def mmS3 : ModelManager := mmRun cfg6 mmS2 "m3"

def mmS4 : ModelManager := mmRun cfg6 mmS3 "m4"

def mmS5 : ModelManager := mmRun cfg6 mmS4 "m5"

def mmS6 : ModelManager := mmRun cfg6 mmS5 "m6"

/-- The state after requesting m1, ..., m5 (filling the active set), then m6
(evicting m1 into the cache), then m1 again (promoted back from the cache
with no ceiling check). -/
def mmOver : ModelManager := mmRun cfg6 mmS6 "m1"

/-- An active model for the eviction fixture. -/
def mW (n : String) (lu : Option ℤ) : BaseModel :=
  { kind := .text, config := tcfg n, is_loaded := true, last_used := lu }

/-- A full active set of five models; m3 is the least recently used. -/
def mmW5 : ModelManager :=
  { models := [("m1", mW "m1" (some 50)), ("m2", mW "m2" (some 30)),
               ("m3", mW "m3" (some 10)), ("m4", mW "m4" (some 40)),
               ("m5", mW "m5" (some 20))] }

/-- The freshly constructed (unloaded) instance for model m6. -/
def newW6 : BaseModel := { kind := .text, config := tcfg "m6" }

/-- `TaskStatus` (tasks.py lines 23-29). -/
inductive TaskStatus
  | pending
  | running
  | completed
  | failed
  | cancelled
deriving DecidableEq, Repr

/-- The `.value` string of a `TaskStatus` member. -/
def TaskStatus.value : TaskStatus → String
  | .pending => "pending"
  | .running => "running"
  | .completed => "completed"
  | .failed => "failed"
  | .cancelled => "cancelled"

/-- Tag selecting the concrete `BaseTask` subclass, as chosen by
`TaskOrchestrator._create_task_instance` from `TaskConfig.task_type`. -/
inductive TaskKind
  | textGeneration
  | imageGeneration
  | classification
deriving DecidableEq, Repr

/-- Python values appearing as task keyword arguments and outputs: strings,
integers, booleans, opaque image handles, and `None`. -/
inductive PyVal
  | str (s : String)
  | int (n : Int)
  | bool (b : Bool)
  | image (handle : String)
  | pynone
deriving DecidableEq, Repr

/-- The fields of `config.TaskConfig` the task layer reads.  Retry count,
batch flags and free-form parameters flow nowhere in the task layer. -/
structure TaskConfig where
  name : String
  task_type : String
  model_name : String
  timeout : ℤ := 300
deriving DecidableEq, Repr

/-- `TaskResult` (tasks.py lines 40-49).  The dataclass additionally carries a
free-form `metadata` dict and a creation `timestamp`, both purely
informational; they are not modelled.  Note the dataclass defines no
`to_dict` method. -/
structure TaskResult where
  task_id : String
  status : TaskStatus
  output : Option PyVal := none
  error : Option String := none
  execution_time : ℤ := 0
deriving DecidableEq, Repr

/-- Attribute access `result.to_dict()` on a `TaskResult`.  The dataclass
(tasks.py lines 40-49) defines no `to_dict` method, so this attribute access
raises `AttributeError` on every instance. -/
def TaskResult.to_dict_attr (_ : TaskResult) : Except String Unit :=
  .error "AttributeError: TaskResult object has no attribute to_dict"

/-- The mutable state of a `BaseTask` instance (tasks.py lines 52-63), plus
the subclass tag. -/
structure BaseTask where
  task_id : String
  kind : TaskKind
  config : TaskConfig
  status : TaskStatus := .pending
  start_time : Option ℤ := none
  end_time : Option ℤ := none
  result : Option TaskResult := none
  error : Option String := none
deriving DecidableEq, Repr

/-- `BaseTask.get_progress` (tasks.py lines 73-86), with `now` the
`time.time()` value it reads.  `if self.start_time:` is Python truthiness: an
unset start time — or one equal to `0.0` — takes the `0.5` fallback. -/
def BaseTask.get_progress (t : BaseTask) (now : ℤ) : ℚ :=
  if t.status = .pending then 0
  else if t.status = .running then
    match t.start_time with
    | some st =>
      if st = 0 then 1/2
      else min (((now - st : ℤ) : ℚ) / ((t.config.timeout : ℤ) : ℚ)) (9/10)
    | none => 1/2
  else if t.status = .completed then 1
  else 0

/-- `TextGenerationTask.validate_input` (tasks.py lines 92-103): requires a
`prompt` key holding a string that is non-empty after `strip()`. -/
def TextGenerationTask.validate_input (kwargs : List (String × PyVal)) :
    Except String Bool :=
  match dlookup "prompt" kwargs with
  | none => .error "Missing required field: prompt"
  | some v =>
    match v with
    | .str p =>
      if (pyStrip p).length = 0 then .error "Prompt must be a non-empty string"
      else .ok true
    | _ => .error "Prompt must be a non-empty string"

/-- `ImageGenerationTask.validate_input` (tasks.py lines 164-175): textually
identical to the text-generation validator. -/
def ImageGenerationTask.validate_input (kwargs : List (String × PyVal)) :
    Except String Bool :=
  match dlookup "prompt" kwargs with
  | none => .error "Missing required field: prompt"
  | some v =>
    match v with
    | .str p =>
      if (pyStrip p).length = 0 then .error "Prompt must be a non-empty string"
      else .ok true
    | _ => .error "Prompt must be a non-empty string"

/-- `ClassificationTask.validate_input` (tasks.py lines 236-240): requires a
`text` or an `image` key.  (The source message quotes the two key names;
the quotes are dropped here.) -/
def ClassificationTask.validate_input (kwargs : List (String × PyVal)) :
    Except String Bool :=
  if dlookup "text" kwargs = none ∧ dlookup "image" kwargs = none
  then .error "Must provide either text or image input"
  else .ok true

/-- Outcomes of the calls that leave the task layer during one `execute`:
`tStart` and `tEnd` are the two `time.time()` reads, `modelOutcome` the
outcome of `self.model_manager.get_model(self.config.model_name)`, and
`genOutcome` the outcome of the model generation / classification call. -/
structure ExecEnv where
  tStart : ℤ
  tEnd : ℤ
  modelOutcome : Except String Unit
  genOutcome : Except String PyVal
deriving DecidableEq, Repr

/-- `TextGenerationTask.execute` (tasks.py lines 105-158): marks the task
running, validates, fetches the model, generates; on success records a
completed result, on any exception a failed result carrying `str(e)`.  In the
failure path `execution_time` is `end - start if self.end_time else 0`
(Python truthiness on the freshly stamped end time). -/
def TextGenerationTask.execute (t : BaseTask) (kwargs : List (String × PyVal))
    (env : ExecEnv) : BaseTask × TaskResult :=
  let t1 := { t with status := .running, start_time := some env.tStart }
  let attempt : Except String PyVal :=
    match TextGenerationTask.validate_input kwargs with
    | .error e => .error e
    | .ok _ =>
      match env.modelOutcome with
      | .error e => .error e
      | .ok _ => env.genOutcome
  match attempt with
  | .ok out =>
    let t2 := { t1 with end_time := some env.tEnd, status := .completed }
    let r : TaskResult := { task_id := t.task_id, status := .completed,
                            output := some out,
                            execution_time := env.tEnd - env.tStart }
    ({ t2 with result := some r }, r)
  | .error e =>
    let t2 := { t1 with status := .failed, error := some e, end_time := some env.tEnd }
    let r : TaskResult := { task_id := t.task_id, status := .failed, error := some e,
                            execution_time := if env.tEnd = 0 then 0
                                              else env.tEnd - env.tStart }
    ({ t2 with result := some r }, r)

/-- `ImageGenerationTask.execute` (tasks.py lines 177-230): same structure as
the text task with the image validator and `generate_image`. -/
def ImageGenerationTask.execute (t : BaseTask) (kwargs : List (String × PyVal))
    (env : ExecEnv) : BaseTask × TaskResult :=
  let t1 := { t with status := .running, start_time := some env.tStart }
  let attempt : Except String PyVal :=
    match ImageGenerationTask.validate_input kwargs with
    | .error e => .error e
    | .ok _ =>
      match env.modelOutcome with
      | .error e => .error e
      | .ok _ => env.genOutcome
  match attempt with
  | .ok out =>
    let t2 := { t1 with end_time := some env.tEnd, status := .completed }
    let r : TaskResult := { task_id := t.task_id, status := .completed,
                            output := some out,
                            execution_time := env.tEnd - env.tStart }
    ({ t2 with result := some r }, r)
  | .error e =>
    let t2 := { t1 with status := .failed, error := some e, end_time := some env.tEnd }
    let r : TaskResult := { task_id := t.task_id, status := .failed, error := some e,
                            execution_time := if env.tEnd = 0 then 0
                                              else env.tEnd - env.tStart }
    ({ t2 with result := some r }, r)

/-- `ClassificationTask.execute` (tasks.py lines 242-294): same structure; the
source branches to `classify_text` or `classify_image` depending on which key
is present — both are external calls whose outcome is `genOutcome`. -/
def ClassificationTask.execute (t : BaseTask) (kwargs : List (String × PyVal))
    (env : ExecEnv) : BaseTask × TaskResult :=
  let t1 := { t with status := .running, start_time := some env.tStart }
  let attempt : Except String PyVal :=
    match ClassificationTask.validate_input kwargs with
    | .error e => .error e
    | .ok _ =>
      match env.modelOutcome with
      | .error e => .error e
      | .ok _ => env.genOutcome
  match attempt with
  | .ok out =>
    let t2 := { t1 with end_time := some env.tEnd, status := .completed }
    let r : TaskResult := { task_id := t.task_id, status := .completed,
                            output := some out,
                            execution_time := env.tEnd - env.tStart }
    ({ t2 with result := some r }, r)
  | .error e =>
    let t2 := { t1 with status := .failed, error := some e, end_time := some env.tEnd }
    let r : TaskResult := { task_id := t.task_id, status := .failed, error := some e,
                            execution_time := if env.tEnd = 0 then 0
                                              else env.tEnd - env.tStart }
    ({ t2 with result := some r }, r)

/-- Virtual dispatch of `task.execute(**kwargs)` on the concrete subclass. -/
def BaseTask.execute (t : BaseTask) (kwargs : List (String × PyVal))
    (env : ExecEnv) : BaseTask × TaskResult :=
  match t.kind with
  | .textGeneration => TextGenerationTask.execute t kwargs env
  | .imageGeneration => ImageGenerationTask.execute t kwargs env
  | .classification => ClassificationTask.execute t kwargs env

structure TaskOrchestrator where
  tasks : List (String × BaseTask) := []
  task_queue : List String := []
  running_tasks : List String := []
  completed_tasks : List String := []
  failed_tasks : List String := []
  max_concurrent_tasks : Nat := 3
deriving DecidableEq, Repr

/-- Key insertion into a dict used as a key set (`d[k] = obj`): no change when
the key is present, append otherwise. -/
def addKey (k : String) (l : List String) : List String :=
  if k ∈ l then l else l ++ [k]

/-- `TaskOrchestrator._create_task_instance` (tasks.py lines 327-336): the
subclass is selected by the `task_type` string; unknown types raise
`ValueError`. -/
def create_task_instance (task_config : TaskConfig) : Except String TaskKind :=
  if task_config.task_type = "text_generation" then .ok .textGeneration
  else if task_config.task_type = "image_generation" then .ok .imageGeneration
  else if task_config.task_type = "classification" then .ok .classification
  else .error ("Unknown task type: " ++ task_config.task_type)

/-- `TaskOrchestrator.create_task` (tasks.py lines 313-325).  `cfgTasks` is
`self.config.tasks` and `new_id` the fresh `uuid.uuid4()` value.  The new task
is registered and queued; the id is returned. -/
def TaskOrchestrator.create_task (o : TaskOrchestrator)
    (cfgTasks : List (String × TaskConfig)) (task_name new_id : String) :
    Except String (TaskOrchestrator × String) :=
  match dlookup task_name cfgTasks with
  | none => .error ("Task " ++ task_name ++ " not found in configuration")
  | some task_config =>
    match create_task_instance task_config with
    | .error e => .error e
    | .ok kind =>
      let task : BaseTask := { task_id := new_id, kind := kind, config := task_config }
      .ok ({ o with tasks := dinsert new_id task o.tasks,
                    task_queue := o.task_queue ++ [new_id] }, new_id)

/-- `TaskOrchestrator.execute_task` (tasks.py lines 338-371).  Raises for an
unknown id and for a task currently `running`; returns the stored result
(possibly `None`) for a `completed` or `failed` task; otherwise runs
`task.execute` and files the task into the completed or failed dict,
removing it from the running dict when present.  Note the terminal-status
guard does NOT include `cancelled`.  The source wraps the run in a
`try/except` that logs and re-raises; since every concrete `execute` catches
its own exceptions, that handler is unreachable and is not modelled. -/
def TaskOrchestrator.execute_task (o : TaskOrchestrator) (task_id : String)
    (kwargs : List (String × PyVal)) (env : ExecEnv) :
    Except String (TaskOrchestrator × Option TaskResult) :=
  match dlookup task_id o.tasks with
  | none => .error ("Task " ++ task_id ++ " not found")
  | some task =>
    if task.status = .running then
      .error ("Task " ++ task_id ++ " is already running")
    else if task.status = .completed ∨ task.status = .failed then
      .ok (o, task.result)
    else
      let te := task.execute kwargs env
      let o1 := { o with tasks := dinsert task_id te.1 o.tasks }
      let o2 :=
        if te.2.status = .completed then
          { o1 with completed_tasks := addKey task_id o1.completed_tasks,
                    running_tasks := o1.running_tasks.erase task_id }
        else if te.2.status = .failed then
          { o1 with failed_tasks := addKey task_id o1.failed_tasks,
                    running_tasks := o1.running_tasks.erase task_id }
        else o1
      .ok (o2, some te.2)

/-- The queue-draining loop of `execute_tasks_async` (tasks.py lines
379-384): pop tasks off the front of the FIFO queue into the running dict
while the queue is non-empty and fewer than `max_workers` tasks are running.
The spawned `_execute_task_async` bodies run later and are not part of this
synchronous bookkeeping. -/
def drainQueue (running : List String) (max_workers : Nat) :
    List String → List String × List String
  | [] => ([], running)
  | id :: rest =>
    if running.length < max_workers then drainQueue (addKey id running) max_workers rest
    else (id :: rest, running)

/-- `TaskOrchestrator.execute_tasks_async` (tasks.py lines 373-384), state
effect of the synchronous part. -/
def TaskOrchestrator.execute_tasks_async (o : TaskOrchestrator) (max_workers : Nat) :
    TaskOrchestrator :=
  let qr := drainQueue o.running_tasks max_workers o.task_queue
  { o with task_queue := qr.1, running_tasks := qr.2 }

/-- `TaskOrchestrator.cancel_task` (tasks.py lines 435-448): only succeeds for
a task in the running dict; marks it cancelled and moves it to the completed
dict.  It does not stamp an end time and does not store a result.  (The
`none` store branch is unreachable: the running dict holds aliases of store
entries.) -/
def TaskOrchestrator.cancel_task (o : TaskOrchestrator) (task_id : String) :
    TaskOrchestrator × Bool :=
  if task_id ∈ o.running_tasks then
    match dlookup task_id o.tasks with
    | some task =>
      let task2 := { task with status := .cancelled }
      ({ o with tasks := dinsert task_id task2 o.tasks,
                completed_tasks := addKey task_id o.completed_tasks,
                running_tasks := o.running_tasks.erase task_id }, true)
    | none => (o, false)
  else (o, false)

/-- The removal condition of `clear_completed_tasks`:
`max_age is None or (task.end_time and current_time - task.end_time > max_age)`.
Python truthiness: a task without an end time — or with end time exactly
`0.0` — is only removed by the `max_age=None` branch. -/
def clearCond (t : BaseTask) (max_age : Option ℤ) (now : ℤ) : Bool :=
  match max_age with
  | none => true
  | some a =>
    match t.end_time with
    | none => false
    | some e => decide (¬ e = 0) && decide (a < now - e)

/-- The loop of `clear_completed_tasks` (tasks.py lines 455-461): iterate over
a snapshot of the completed keys; each matching task is deleted from the
completed dict and the master registry and counted.  An id absent from the
store is skipped here; in the source the completed dict aliases store
entries, so that case never arises (the theorems carry the aliasing as a
hypothesis). -/
def clearLoop (max_age : Option ℤ) (now : ℤ) :
    List String → List String → List (String × BaseTask) → Nat →
    List String × List (String × BaseTask) × Nat
  | [], completed, tasks, n => (completed, tasks, n)
  | id :: rest, completed, tasks, n =>
    match dlookup id tasks with
    | none => clearLoop max_age now rest completed tasks n
    | some t =>
      if clearCond t max_age now
      then clearLoop max_age now rest (completed.erase id) (derase id tasks) (n + 1)
      else clearLoop max_age now rest completed tasks n

/-- `TaskOrchestrator.clear_completed_tasks` (tasks.py lines 450-464), with
`now` the `time.time()` value it reads; returns the new state and the cleared
count. -/
def TaskOrchestrator.clear_completed_tasks (o : TaskOrchestrator)
    (max_age : Option ℤ) (now : ℤ) : TaskOrchestrator × Nat :=
  let res := clearLoop max_age now o.completed_tasks o.completed_tasks o.tasks 0
  ({ o with completed_tasks := res.1, tasks := res.2.1 }, res.2.2)

/-- The dict returned by `get_task_status` (tasks.py lines 418-426).  The
`result` entry would hold the output of `task.result.to_dict()`; since that
call always raises, the entry is only ever `None`. -/
structure TaskStatusDict where
  task_id : String
  status : String
  progress : ℚ
  start_time : Option ℤ
  end_time : Option ℤ
  error : Option String
  result : Option Unit
deriving DecidableEq, Repr

/-- `TaskOrchestrator.get_task_status` (tasks.py lines 412-426), with `now`
the `time.time()` value read by `get_progress`.  Returns `None` for an
unknown id; for a task holding a result, evaluates `task.result.to_dict()`,
which raises `AttributeError`. -/
def TaskOrchestrator.get_task_status (o : TaskOrchestrator) (task_id : String)
    (now : ℤ) : Except String (Option TaskStatusDict) :=
  match dlookup task_id o.tasks with
  | none => .ok none
  | some task =>
    match task.result with
    | none =>
      .ok (some { task_id := task_id, status := task.status.value,
                  progress := task.get_progress now,
                  start_time := task.start_time, end_time := task.end_time,
                  error := task.error, result := none })
    | some r =>
      match r.to_dict_attr with
      | .error e => .error e
      | .ok u =>
        .ok (some { task_id := task_id, status := task.status.value,
                    progress := task.get_progress now,
                    start_time := task.start_time, end_time := task.end_time,
                    error := task.error, result := some u })

/-- The status of task `task_id` as observable in orchestrator state `o`. -/
def TaskOrchestrator.statusOf (o : TaskOrchestrator) (task_id : String) :
    Option TaskStatus :=
  (dlookup task_id o.tasks).map BaseTask.status

/-- One orchestrator operation of the kind claim C2 ranges over:
`create_task` (with a fresh uuid, as `uuid.uuid4()` guarantees),
`execute_task`, and `cancel_task`.  Raising calls leave the state unchanged
and are not steps. -/
inductive OStep (cfgTasks : List (String × TaskConfig)) :
    TaskOrchestrator → TaskOrchestrator → Prop
  | create (o o' : TaskOrchestrator) (task_name new_id rid : String)
      (hfresh : dlookup new_id o.tasks = none)
      (h : o.create_task cfgTasks task_name new_id = .ok (o', rid)) :
      OStep cfgTasks o o'
  | exec (o o' : TaskOrchestrator) (task_id : String)
      (kwargs : List (String × PyVal)) (env : ExecEnv) (r : Option TaskResult)
      (h : o.execute_task task_id kwargs env = .ok (o', r)) :
      OStep cfgTasks o o'
  | cancel (o : TaskOrchestrator) (task_id : String) :
      OStep cfgTasks o (o.cancel_task task_id).1

/-- The freshly constructed orchestrator of `TaskOrchestrator.__init__`. -/
def initialOrchestrator : TaskOrchestrator := {}

/-- Orchestrator states reachable by sequences of the C2 operations. -/
def OReach (cfgTasks : List (String × TaskConfig)) (o : TaskOrchestrator) : Prop :=
  Relation.ReflTransGen (OStep cfgTasks) initialOrchestrator o

/-- Extract the orchestrator from a non-raising call, with a fallback. -/
def okState {β : Type} (x : Except String (TaskOrchestrator × β))
    (dflt : TaskOrchestrator) : TaskOrchestrator :=
  match x with
  | .ok p => p.1
  | .error _ => dflt

/-- A text-generation task configuration. -/
def cfgGen : TaskConfig := { name := "gen", task_type := "text_generation", model_name := "m1" }

/-- An agent task configuration with the single task `gen`. -/
def cfgT : List (String × TaskConfig) := [("gen", cfgGen)]

/-- Valid keyword arguments for a generation task. -/
def kwOK : List (String × PyVal) := [("prompt", .str "hello")]

/-- An execution environment where everything succeeds. -/
def okEnv : ExecEnv :=
  { tStart := 10, tEnd := 11, modelOutcome := .ok (), genOutcome := .ok (.str "out") }

/-- The orchestrator after `create_task("gen")` produced task id t1. -/
def oA : TaskOrchestrator := okState (initialOrchestrator.create_task cfgT "gen" "t1") initialOrchestrator

/-- The orchestrator after t1 was then executed successfully. -/
def oB : TaskOrchestrator := okState (oA.execute_task "t1" kwOK okEnv) oA

/-- The result recorded for t1 by that successful execution. -/
def rB : TaskResult :=
  { task_id := "t1", status := .completed, output := some (.str "out"), execution_time := 1 }

/-- The state of task t1 inside `oB`. -/
def tB : BaseTask :=
  { task_id := "t1", kind := .textGeneration, config := cfgGen, status := .completed,
    start_time := some 10, end_time := some 11, result := some rB }

/-- Create task c1, dispatch it to the running set via `execute_tasks_async`,
then cancel it: `oC3` holds c1 with status `cancelled`, no stored result, no
timestamps, sitting in the completed bucket. -/
def oC1 : TaskOrchestrator := okState (initialOrchestrator.create_task cfgT "gen" "c1") initialOrchestrator

def oC2 : TaskOrchestrator := oC1.execute_tasks_async 3

def oC3 : TaskOrchestrator := (oC2.cancel_task "c1").1

/-- A running task with no recorded start time for the C10 counterexample. -/
def tRun : BaseTask :=
  { task_id := "r1", kind := .textGeneration, config := cfgGen,
    status := .running, start_time := none }

/-- Invariant of the states reachable by the C2 operations: the running dict
is empty (only `execute_tasks_async` ever fills it) and every stored task is
pending, completed or failed. -/
def OInv (o : TaskOrchestrator) : Prop :=
  o.running_tasks = [] ∧
  ∀ id t, dlookup id o.tasks = some t →
    t.status = .pending ∨ t.status = .completed ∨ t.status = .failed

/-- Rank of a status in the one-way lifecycle. -/
def statusRank : TaskStatus → Nat
  | .pending => 0
  | .running => 1
  | .completed => 2
  | .failed => 2
  | .cancelled => 2

/-- A terminal status. -/
def isTerminalStatus (s : TaskStatus) : Prop :=
  s = .completed ∨ s = .failed ∨ s = .cancelled

/-- The removal condition of the clear loop, looked up through a task store. -/
def clearCondAt (tasks : List (String × BaseTask)) (max_age : Option ℤ) (now : ℤ)
    (id : String) : Bool :=
  match dlookup id tasks with
  | some t => clearCond t max_age now
  | none => false

/-- A pending text-generation task instance. -/
def tPend : BaseTask := { task_id := "p1", kind := .textGeneration, config := cfgGen }

/-- An environment whose model generation call raises an exception with an
empty message (`str(e) == ""`, as for `raise Exception()` in Python). -/
def emptyMsgEnv : ExecEnv :=
  { tStart := 10, tEnd := 11, modelOutcome := .ok (), genOutcome := .error "" }

/-- A configured pending task identical to the one `oA` stores under t1. -/
def tA : BaseTask := { task_id := "t1", kind := .textGeneration, config := cfgGen }

/-- An environment whose model generation call raises with message boom. -/
def boomEnv : ExecEnv :=
  { tStart := 10, tEnd := 11, modelOutcome := .ok (), genOutcome := .error "boom" }

/-! ## Theorems -/

theorem dlookup_dinsert_self {α : Type} (k : String) (v : α) (d : List (String × α)) :
    dlookup k (dinsert k v d) = some v := by
  induction d with
  | nil => simp [dinsert, dlookup]
  | cons p rest ih =>
    by_cases h : p.1 = k
    · simp [dinsert, h, dlookup]
    · simp [dinsert, h, dlookup, ih]

theorem dlookup_dinsert_ne {α : Type} {k k' : String} (v : α) (d : List (String × α))
    (hne : k' ≠ k) : dlookup k' (dinsert k v d) = dlookup k' d := by
  have hne' : ¬ k = k' := fun h => hne h.symm
  induction d with
  | nil => simp [dinsert, dlookup, hne']
  | cons p rest ih =>
    by_cases h : p.1 = k
    · subst h
      simp [dinsert, dlookup, hne']
    · by_cases h2 : p.1 = k'
      · simp [dinsert, h, dlookup, h2, hne]
      · simp [dinsert, h, dlookup, h2, ih]

theorem dlookup_derase_self {α : Type} (k : String) (d : List (String × α)) :
    dlookup k (derase k d) = none := by
  induction d with
  | nil => simp [derase, dlookup]
  | cons p rest ih =>
    by_cases h : p.1 = k
    · simpa [derase, List.filter_cons, h] using ih
    · simp only [derase, List.filter_cons] at ih ⊢
      simp [h, dlookup, ih]

theorem dlookup_derase_ne {α : Type} {k k' : String} (d : List (String × α))
    (hne : k' ≠ k) : dlookup k' (derase k d) = dlookup k' d := by
  induction d with
  | nil => simp [derase, dlookup]
  | cons p rest ih =>
    by_cases h : p.1 = k
    · have hp : ¬ p.1 = k' := by rw [h]; exact fun hh => hne hh.symm
      simp only [derase, List.filter_cons] at ih ⊢
      simp [h, dlookup, hp, ih, Ne.symm hne]
    · simp only [derase, List.filter_cons] at ih ⊢
      by_cases h2 : p.1 = k'
      · simp [h, dlookup, h2, hne]
      · simp [h, dlookup, h2, ih]

theorem dlookup_derase {α : Type} (k k' : String) (d : List (String × α)) :
    dlookup k' (derase k d) = if k' = k then none else dlookup k' d := by
  by_cases h : k' = k
  · subst h; simp [dlookup_derase_self]
  · simp [h, dlookup_derase_ne d h]

theorem dlookup_dinsert {α : Type} (k k' : String) (v : α) (d : List (String × α)) :
    dlookup k' (dinsert k v d) = if k' = k then some v else dlookup k' d := by
  by_cases h : k' = k
  · subst h; simp [dlookup_dinsert_self]
  · simp [h, dlookup_dinsert_ne v d h]

theorem dlookup_isSome_of_mem {α : Type} {p : String × α} {d : List (String × α)}
    (h : p ∈ d) : (dlookup p.1 d).isSome := by
  induction d with
  | nil => cases h
  | cons q rest ih =>
    rcases List.mem_cons.mp h with h' | h'
    · subst h'; simp [dlookup]
    · by_cases hq : q.1 = p.1
      · simp [dlookup, hq]
      · simp [dlookup, hq, ih h']

theorem length_dinsert_of_none {α : Type} {k : String} (v : α) {d : List (String × α)}
    (h : dlookup k d = none) : (dinsert k v d).length = d.length + 1 := by
  induction d with
  | nil => simp [dinsert]
  | cons p rest ih =>
    by_cases hp : p.1 = k
    · simp [dlookup, hp] at h
    · simp only [dlookup, hp, if_false] at h
      simp [dinsert, hp, ih h]

theorem length_derase_lt {α : Type} {k : String} {d : List (String × α)}
    (h : (dlookup k d).isSome) : (derase k d).length < d.length := by
  induction d with
  | nil => simp [dlookup] at h
  | cons p rest ih =>
    by_cases hp : p.1 = k
    · simp only [derase, List.filter_cons, hp]
      simp only [decide_True, Bool.not_true, if_neg Bool.false_ne_true]
      calc (List.filter (fun p => ! decide (p.1 = k)) rest).length
          ≤ rest.length := List.length_filter_le _ _
        _ < (p :: rest).length := by simp
    · simp only [dlookup, hp, if_false] at h
      simp only [derase, List.filter_cons] at ih ⊢
      simp only [hp, decide_False, Bool.not_false, if_pos rfl]
      simpa using Nat.succ_lt_succ (ih h)

theorem minGo_mem (best : String × BaseModel) (l : List (String × BaseModel)) :
    minGo best l ∈ best :: l := by
  induction l generalizing best with
  | nil => simp [minGo]
  | cons p rest ih =>
    by_cases h : lastUsedKey p.2 < lastUsedKey best.2
    · have := ih p
      simp only [minGo, if_pos h]
      simp only [List.mem_cons] at this ⊢
      tauto
    · have := ih best
      simp only [minGo, if_neg h]
      simp only [List.mem_cons] at this ⊢
      tauto

theorem minGo_le (best : String × BaseModel) (l : List (String × BaseModel)) :
    ∀ q ∈ best :: l, lastUsedKey (minGo best l).2 ≤ lastUsedKey q.2 := by
  induction l generalizing best with
  | nil =>
    intro q hq
    simp only [List.mem_cons, List.not_mem_nil, or_false] at hq
    subst hq; simp [minGo]
  | cons p rest ih =>
    intro q hq
    by_cases h : lastUsedKey p.2 < lastUsedKey best.2
    · simp only [minGo, if_pos h]
      rcases List.mem_cons.mp hq with h1 | h1
      · rw [h1]
        exact le_of_lt (lt_of_le_of_lt (ih p p (List.mem_cons_self p rest)) h)
      · exact ih p q h1
    · simp only [minGo, if_neg h]
      rcases List.mem_cons.mp hq with h1 | h1
      · rw [h1]; exact ih best best (List.mem_cons_self best rest)
      · rcases List.mem_cons.mp h1 with h2 | h2
        · rw [h2]
          exact le_trans (ih best best (List.mem_cons_self best rest)) (not_lt.mp h)
        · exact ih best q (List.mem_cons_of_mem best h2)

theorem minByLastUsed_mem {l : List (String × BaseModel)} {p : String × BaseModel}
    (h : minByLastUsed l = some p) : p ∈ l := by
  cases l with
  | nil => simp [minByLastUsed] at h
  | cons q rest =>
    simp only [minByLastUsed, Option.some.injEq] at h
    exact h ▸ minGo_mem q rest

theorem minByLastUsed_le {l : List (String × BaseModel)} {p : String × BaseModel}
    (h : minByLastUsed l = some p) :
    ∀ q ∈ l, lastUsedKey p.2 ≤ lastUsedKey q.2 := by
  cases l with
  | nil => simp [minByLastUsed] at h
  | cons q rest =>
    simp only [minByLastUsed, Option.some.injEq] at h
    exact h ▸ minGo_le q rest

theorem dlookup_filter_isSome {α : Type} (f : String × α → Bool) (k : String)
    (d : List (String × α)) (h : (dlookup k (d.filter f)).isSome) :
    (dlookup k d).isSome := by
  induction d with
  | nil => simp [dlookup] at h
  | cons p rest ih =>
    cases hf : f p with
    | true =>
      simp only [List.filter_cons, hf, if_pos rfl] at h
      by_cases hk : p.1 = k
      · simp [dlookup, hk]
      · simp only [dlookup, hk, if_false] at h ⊢
        exact ih h
    | false =>
      simp only [List.filter_cons, hf] at h
      simp only [if_neg Bool.false_ne_true] at h
      by_cases hk : p.1 = k
      · simp [dlookup, hk]
      · simp only [dlookup, hk, if_false]
        exact ih h

theorem get_model_active {mm : ModelManager} {cfgModels : List (String × ModelConfig)}
    {model_name : String} {mcfg : ModelConfig} {m : BaseModel}
    (hcfg : dlookup model_name cfgModels = some mcfg)
    (hm : dlookup model_name mm.models = some m) :
    mm.get_model cfgModels model_name = .ok (mm, m) := by
  simp only [ModelManager.get_model, hcfg, hm]

theorem get_model_promote {mm : ModelManager} {cfgModels : List (String × ModelConfig)}
    {model_name : String} {mcfg : ModelConfig} {m : BaseModel}
    (hcfg : dlookup model_name cfgModels = some mcfg)
    (hm : dlookup model_name mm.models = none)
    (hc : dlookup model_name mm.model_cache = some m) :
    mm.get_model cfgModels model_name =
      .ok ({ mm with model_cache := derase model_name mm.model_cache,
                     models := dinsert model_name m mm.models }, m) := by
  simp only [ModelManager.get_model, hcfg, hm, hc]

theorem get_model_new_full {mm : ModelManager} {cfgModels : List (String × ModelConfig)}
    {model_name : String} {mcfg : ModelConfig} {model : BaseModel}
    (hcfg : dlookup model_name cfgModels = some mcfg)
    (hm : dlookup model_name mm.models = none)
    (hc : dlookup model_name mm.model_cache = none)
    (hcr : ModelManager.create_model mcfg = .ok model)
    (hfull : mm.max_cache_size ≤ mm.models.length) :
    mm.get_model cfgModels model_name =
      .ok ({ mm.evict_least_used with
             models := dinsert model_name model mm.evict_least_used.models }, model) := by
  simp only [ModelManager.get_model, hcfg, hm, hc, hcr, hfull, if_true]

theorem get_model_new_notfull {mm : ModelManager} {cfgModels : List (String × ModelConfig)}
    {model_name : String} {mcfg : ModelConfig} {model : BaseModel}
    (hcfg : dlookup model_name cfgModels = some mcfg)
    (hm : dlookup model_name mm.models = none)
    (hc : dlookup model_name mm.model_cache = none)
    (hcr : ModelManager.create_model mcfg = .ok model)
    (hfull : ¬ mm.max_cache_size ≤ mm.models.length) :
    mm.get_model cfgModels model_name =
      .ok ({ mm with models := dinsert model_name model mm.models }, model) := by
  simp only [ModelManager.get_model, hcfg, hm, hc, hcr, hfull, if_false]

theorem get_model_error_noconfig {mm : ModelManager}
    {cfgModels : List (String × ModelConfig)} {model_name : String}
    (hcfg : dlookup model_name cfgModels = none) :
    mm.get_model cfgModels model_name =
      .error ("Model " ++ model_name ++ " not found in configuration") := by
  simp only [ModelManager.get_model, hcfg]

theorem get_model_error_create {mm : ModelManager}
    {cfgModels : List (String × ModelConfig)} {model_name : String}
    {mcfg : ModelConfig} {e : String}
    (hcfg : dlookup model_name cfgModels = some mcfg)
    (hm : dlookup model_name mm.models = none)
    (hc : dlookup model_name mm.model_cache = none)
    (hcr : ModelManager.create_model mcfg = .error e) :
    mm.get_model cfgModels model_name = .error e := by
  simp only [ModelManager.get_model, hcfg, hm, hc, hcr]

theorem disjoint_evict {mm : ModelManager} (h : disjointSets mm) :
    disjointSets mm.evict_least_used := by
  unfold ModelManager.evict_least_used
  cases hmin : minByLastUsed mm.models with
  | none => exact h
  | some p =>
    obtain ⟨n0, m0⟩ := p
    intro k hk
    simp only at hk ⊢
    rw [dlookup_derase] at hk
    by_cases hkn : k = n0
    · rw [if_pos hkn] at hk; simp at hk
    · rw [if_neg hkn] at hk
      rw [dlookup_dinsert, if_neg hkn]
      exact h k hk

theorem disjoint_insert_active {mm : ModelManager} (model_name : String) (model : BaseModel)
    (h : disjointSets mm) (hc : dlookup model_name mm.model_cache = none) :
    disjointSets { mm with models := dinsert model_name model mm.models } := by
  intro k hk
  simp only at hk ⊢
  rw [dlookup_dinsert] at hk
  by_cases hkn : k = model_name
  · exact hkn ▸ hc
  · rw [if_neg hkn] at hk
    exact h k hk

theorem MStep_preserves_disjoint {cfgModels : List (String × ModelConfig)}
    {mm mm' : ModelManager} (hd : disjointSets mm) (hs : MStep cfgModels mm mm') :
    disjointSets mm' := by
  cases hs with
  | get mm' model_name h =>
    unfold get_model_state at h
    cases hcfg : dlookup model_name cfgModels with
    | none => rw [get_model_error_noconfig hcfg] at h; simp [Except.toOption] at h
    | some mcfg =>
      cases hm : dlookup model_name mm.models with
      | some m =>
        rw [get_model_active hcfg hm] at h
        simp [Except.toOption] at h
        exact h ▸ hd
      | none =>
        cases hc : dlookup model_name mm.model_cache with
        | some m =>
          rw [get_model_promote hcfg hm hc] at h
          simp [Except.toOption] at h
          subst h
          intro k hk
          simp only at hk ⊢
          rw [dlookup_dinsert] at hk
          by_cases hkn : k = model_name
          · rw [hkn, dlookup_derase_self]
          · rw [if_neg hkn] at hk
            rw [dlookup_derase, if_neg hkn]
            exact hd k hk
        | none =>
          cases hcr : ModelManager.create_model mcfg with
          | error e => rw [get_model_error_create hcfg hm hc hcr] at h
                       simp [Except.toOption] at h
          | ok model =>
            by_cases hfull : mm.max_cache_size ≤ mm.models.length
            · rw [get_model_new_full hcfg hm hc hcr hfull] at h
              simp [Except.toOption] at h
              subst h
              have hd1 : disjointSets mm.evict_least_used := disjoint_evict hd
              apply disjoint_insert_active _ _ hd1
              unfold ModelManager.evict_least_used
              cases hmin : minByLastUsed mm.models with
              | none => exact hc
              | some p =>
                obtain ⟨n0, m0⟩ := p
                have hn0 : n0 ≠ model_name := by
                  intro hEq
                  have hmem := minByLastUsed_mem hmin
                  have hsome := dlookup_isSome_of_mem hmem
                  simp only at hsome
                  rw [hEq, hm] at hsome
                  simp at hsome
                simp only
                rw [dlookup_dinsert, if_neg (fun hh => hn0 hh.symm)]
                exact hc
            · rw [get_model_new_notfull hcfg hm hc hcr hfull] at h
              simp [Except.toOption] at h
              subst h
              exact disjoint_insert_active _ _ hd hc
  | unload model_name =>
    unfold ModelManager.unload_model
    cases hm : dlookup model_name mm.models with
    | some m =>
      simp only [hm]
      intro k hk
      simp only at hk ⊢
      rw [dlookup_derase] at hk
      by_cases hkn : k = model_name
      · rw [if_pos hkn] at hk; simp at hk
      · rw [if_neg hkn] at hk
        exact hd k hk
    | none => simp only [hm]; exact hd
  | unloadAll =>
    intro k hk
    simp [ModelManager.unload_all, dlookup] at hk
  | optimize now =>
    intro k hk
    simp only [ModelManager.optimize_memory] at hk ⊢
    exact hd k (dlookup_filter_isSome _ k mm.models hk)

theorem length_derase_le {α : Type} (k : String) (d : List (String × α)) :
    (derase k d).length ≤ d.length :=
  List.length_filter_le _ _

theorem MStepNP_preserves_ceiling {cfgModels : List (String × ModelConfig)}
    {mm mm' : ModelManager} (hinv : ceilingInv mm) (hs : MStepNP cfgModels mm mm') :
    ceilingInv mm' := by
  obtain ⟨hmax, hlen⟩ := hinv
  cases hs with
  | get mm' model_name hnc h =>
    unfold get_model_state at h
    cases hcfg : dlookup model_name cfgModels with
    | none => rw [get_model_error_noconfig hcfg] at h; simp [Except.toOption] at h
    | some mcfg =>
      cases hm : dlookup model_name mm.models with
      | some m =>
        rw [get_model_active hcfg hm] at h
        simp [Except.toOption] at h
        exact h ▸ ⟨hmax, hlen⟩
      | none =>
        cases hcr : ModelManager.create_model mcfg with
        | error e => rw [get_model_error_create hcfg hm hnc hcr] at h
                     simp [Except.toOption] at h
        | ok model =>
          by_cases hfull : mm.max_cache_size ≤ mm.models.length
          · rw [get_model_new_full hcfg hm hnc hcr hfull] at h
            simp [Except.toOption] at h
            subst h
            cases hmm : mm.models with
            | nil => rw [hmax] at hfull; simp [hmm] at hfull
            | cons p rest =>
              have hminS : minByLastUsed mm.models = some (minGo p rest) := by
                rw [hmm]; rfl
              have hmem := minByLastUsed_mem hminS
              have hsome := dlookup_isSome_of_mem hmem
              have hlt : (derase (minGo p rest).1 mm.models).length < mm.models.length :=
                length_derase_lt hsome
              have hfresh :
                  dlookup model_name (derase (minGo p rest).1 mm.models) = none := by
                rw [dlookup_derase]
                by_cases hq : model_name = (minGo p rest).1
                · rw [if_pos hq]
                · rw [if_neg hq]; exact hm
              constructor
              · simp [ModelManager.evict_least_used, hminS, hmax]
              · simp only [ModelManager.evict_least_used, hminS]
                rw [length_dinsert_of_none model hfresh]
                omega
          · rw [get_model_new_notfull hcfg hm hnc hcr hfull] at h
            simp [Except.toOption] at h
            subst h
            refine ⟨hmax, ?_⟩
            simp only
            rw [length_dinsert_of_none model hm]
            rw [hmax] at hfull
            omega
  | unload model_name =>
    unfold ModelManager.unload_model
    cases hm : dlookup model_name mm.models with
    | some m =>
      simp only [hm]
      exact ⟨hmax, le_trans (length_derase_le _ _) hlen⟩
    | none => simp only [hm]; exact ⟨hmax, hlen⟩
  | unloadAll => exact ⟨hmax, by simp [ModelManager.unload_all]⟩
  | optimize now =>
    exact ⟨hmax, le_trans (List.length_filter_le _ _) hlen⟩

/-- C4: when `get_model` is called for a model that is neither active nor
cached while the active set has reached `max_cache_size`, exactly one model is
evicted: the active model with the minimum `last_used` key (an absent
`last_used` counting as oldest, i.e. key 0), it is moved into the cached set
unloaded, and the newly requested model is added to the active set. -/
theorem get_model_evicts_least_recently_used
    (mm : ModelManager) (cfgModels : List (String × ModelConfig))
    (model_name : String) (mcfg : ModelConfig) (newModel : BaseModel)
    (n0 : String) (m0 : BaseModel)
    (hcfg : dlookup model_name cfgModels = some mcfg)
    (hm : dlookup model_name mm.models = none)
    (hc : dlookup model_name mm.model_cache = none)
    (hcr : ModelManager.create_model mcfg = .ok newModel)
    (hfull : mm.max_cache_size ≤ mm.models.length)
    (hmin : minByLastUsed mm.models = some (n0, m0)) :
    mm.get_model cfgModels model_name =
      .ok ({ mm with models := dinsert model_name newModel (derase n0 mm.models),
                     model_cache := dinsert n0 m0.unload mm.model_cache }, newModel)
    ∧ (n0, m0) ∈ mm.models
    ∧ (∀ q ∈ mm.models, lastUsedKey m0 ≤ lastUsedKey q.2)
    ∧ m0.unload.is_loaded = false
    ∧ dlookup model_name (dinsert model_name newModel (derase n0 mm.models)) = some newModel := by
  refine ⟨?_, minByLastUsed_mem hmin, minByLastUsed_le hmin, rfl, dlookup_dinsert_self _ _ _⟩
  rw [get_model_new_full hcfg hm hc hcr hfull]
  simp [ModelManager.evict_least_used, hmin]

/-- Witness for C4 at a concrete full manager: requesting m6 evicts m3 (the
minimum `last_used`) into the cache and activates m6. -/
theorem get_model_evicts_least_recently_used_witness :
    mmW5.get_model cfg6 "m6" =
      .ok ({ mmW5 with models := dinsert "m6" newW6 (derase "m3" mmW5.models),
                       model_cache := dinsert "m3" ((mW "m3" (some 10)).unload)
                                        mmW5.model_cache }, newW6) :=
  (get_model_evicts_least_recently_used mmW5 cfg6 "m6" (tcfg "m6") newW6 "m3"
    (mW "m3" (some 10)) (by decide) (by decide) (by decide) (by decide)
    (by decide) (by decide)).1

/-- C5 counterexample: the cache-size ceiling is not enforced at every
reachable state.  Filling the active set (m1..m5), loading m6 (which evicts
m1 into the cache) and then requesting m1 again takes the cached-to-active
promotion path, which performs no ceiling check: the reachable state `mmOver`
holds 6 active models while `max_cache_size` is 5. -/
theorem cache_ceiling_exceeded_counterexample :
    MReach cfg6 mmOver ∧ mmOver.models.length = 6 ∧ mmOver.max_cache_size = 5 := by
  refine ⟨?_, by decide, by decide⟩
  have h1 : MStep cfg6 initialManager mmS1 := MStep.get _ _ "m1" rfl
  have h2 : MStep cfg6 mmS1 mmS2 := MStep.get _ _ "m2" rfl
  have h3 : MStep cfg6 mmS2 mmS3 := MStep.get _ _ "m3" rfl
  have h4 : MStep cfg6 mmS3 mmS4 := MStep.get _ _ "m4" rfl
  have h5 : MStep cfg6 mmS4 mmS5 := MStep.get _ _ "m5" rfl
  have h6 : MStep cfg6 mmS5 mmS6 := MStep.get _ _ "m6" rfl
  have h7 : MStep cfg6 mmS6 mmOver := MStep.get _ _ "m1" rfl
  exact Relation.ReflTransGen.tail
    (Relation.ReflTransGen.tail
      (Relation.ReflTransGen.tail
        (Relation.ReflTransGen.tail
          (Relation.ReflTransGen.tail
            (Relation.ReflTransGen.tail
              (Relation.ReflTransGen.tail Relation.ReflTransGen.refl h1) h2) h3) h4) h5) h6) h7

/-- C5 amended: the ceiling does hold along every operation sequence that
never takes the cached-to-active promotion path — the new-model path of
`get_model` evicts before inserting once the active set is full, and the
other operations only shrink the active set.  (The promotion path performs no
ceiling check, and `cache_ceiling_exceeded_counterexample` shows the active
set exceeding the ceiling through it.) -/
theorem cache_ceiling_holds_without_promotion
    (cfgModels : List (String × ModelConfig)) (mm : ModelManager)
    (h : MReachNP cfgModels mm) : mm.models.length ≤ mm.max_cache_size := by
  have hinv : ceilingInv mm := by
    induction h with
    | refl => exact ⟨rfl, by simp [initialManager]⟩
    | tail hsteps hstep ih => exact MStepNP_preserves_ceiling ih hstep
  rw [hinv.1]; exact hinv.2

/-- Witness for the amended C5 at a concrete state: one non-promoting
`get_model` call from the initial manager. -/
theorem cache_ceiling_holds_without_promotion_witness :
    mmS1.models.length ≤ mmS1.max_cache_size :=
  cache_ceiling_holds_without_promotion cfg6 mmS1
    (Relation.ReflTransGen.tail Relation.ReflTransGen.refl
      (MStepNP.get _ _ "m1" rfl rfl))

/-- C8 counterexample: `get_model` on the new-model path does NOT load the
model: `_create_model` only constructs the instance, `load` is never called,
and the returned instance has `is_loaded = false`. -/
theorem get_model_returns_unloaded_counterexample :
    initialManager.get_model cfg6 "m1" =
      .ok ({ initialManager with models := dinsert "m1" { kind := .text, config := tcfg "m1" }
                                             initialManager.models },
            { kind := .text, config := tcfg "m1" })
    ∧ ({ kind := .text, config := tcfg "m1" } : BaseModel).is_loaded = false := by
  exact ⟨by decide, rfl⟩

/-- C8 amended: for a model neither active nor cached, `get_model` constructs
a new *unloaded* instance from the `ModelConfig` and adds it to the active
set; the weights are loaded lazily at the first generation call
(`generate_text` runs `load` when `is_loaded` is false, and only then runs the
pipeline). -/
theorem get_model_new_is_unloaded_until_first_generation
    (mm : ModelManager) (cfgModels : List (String × ModelConfig))
    (model_name : String) (mcfg : ModelConfig)
    (prompt g : String) (env : GenEnv)
    (hcfg : dlookup model_name cfgModels = some mcfg)
    (hkind : mcfg.model_type = "text")
    (hm : dlookup model_name mm.models = none)
    (hc : dlookup model_name mm.model_cache = none)
    (hload : env.loadOutcome = .ok ())
    (hgen : env.genOutcome = .ok g) :
    (mm.get_model cfgModels model_name =
      .ok ({ (if mm.max_cache_size ≤ mm.models.length
              then mm.evict_least_used else mm) with
             models := dinsert model_name { kind := .text, config := mcfg }
               (if mm.max_cache_size ≤ mm.models.length
                then mm.evict_least_used else mm).models },
            { kind := .text, config := mcfg }))
    ∧ ({ kind := .text, config := mcfg } : BaseModel).is_loaded = false
    ∧ dlookup model_name
        (dinsert model_name ({ kind := .text, config := mcfg } : BaseModel)
          (if mm.max_cache_size ≤ mm.models.length
           then mm.evict_least_used else mm).models) =
        some { kind := .text, config := mcfg }
    ∧ TextModel.generate_text { kind := .text, config := mcfg } prompt env =
        .ok ({ kind := .text, config := mcfg, is_loaded := true,
               load_time := some env.loadDuration, last_used := some env.now },
             if pyStartsWith g prompt then pyStrip (pyDropPfx g prompt) else g) := by
  have hcr : ModelManager.create_model mcfg = .ok { kind := .text, config := mcfg } := by
    simp [ModelManager.create_model, hkind]
  refine ⟨?_, rfl, dlookup_dinsert_self _ _ _, ?_⟩
  · by_cases hfull : mm.max_cache_size ≤ mm.models.length
    · rw [get_model_new_full hcfg hm hc hcr hfull, if_pos hfull]
    · rw [get_model_new_notfull hcfg hm hc hcr hfull, if_neg hfull]
  · simp [TextModel.generate_text, TextModel.load, hload, hgen,
          BaseModel.update_usage]

/-- Witness for the amended C8: loading m1 into the fresh manager returns an
unloaded instance; a first generation call then loads it. -/
theorem get_model_new_is_unloaded_until_first_generation_witness :
    TextModel.generate_text { kind := .text, config := tcfg "m1" } "hi"
        { now := 7, loadDuration := 2, loadOutcome := .ok (), genOutcome := .ok "hi there" } =
      .ok ({ kind := .text, config := tcfg "m1", is_loaded := true,
             load_time := some 2, last_used := some 7 }, "there") := by
  have h := (get_model_new_is_unloaded_until_first_generation initialManager cfg6 "m1"
    (tcfg "m1") "hi" "hi there"
    { now := 7, loadDuration := 2, loadOutcome := .ok (), genOutcome := .ok "hi there" }
    (by decide) rfl (by decide) (by decide) rfl rfl).2.2.2
  exact h.trans (by decide)

/-- C9: at every reachable manager state the active set and the cached set
are disjoint: no model name is in `models` and `model_cache` simultaneously
(eviction moves an instance between the sets without duplicating it). -/
theorem active_and_cached_sets_disjoint
    (cfgModels : List (String × ModelConfig)) (mm : ModelManager)
    (h : MReach cfgModels mm) : disjointSets mm := by
  induction h with
  | refl => intro k hk; simp [initialManager, dlookup] at hk
  | tail hsteps hstep ih => exact MStep_preserves_disjoint ih hstep

/-- Witness for C9 at a concrete reachable state: after the full
fill/evict/promote trace, m1 is active again and no longer cached. -/
theorem active_and_cached_sets_disjoint_witness :
    dlookup "m1" mmOver.model_cache = none :=
  active_and_cached_sets_disjoint cfg6 mmOver
    (Relation.ReflTransGen.tail
      (Relation.ReflTransGen.tail
        (Relation.ReflTransGen.tail
          (Relation.ReflTransGen.tail
            (Relation.ReflTransGen.tail
              (Relation.ReflTransGen.tail
                (Relation.ReflTransGen.tail Relation.ReflTransGen.refl
                  (MStep.get _ _ "m1" rfl)) (MStep.get _ _ "m2" rfl))
              (MStep.get _ _ "m3" rfl)) (MStep.get _ _ "m4" rfl))
          (MStep.get _ _ "m5" rfl)) (MStep.get _ _ "m6" rfl))
      (MStep.get _ _ "m1" rfl))
    "m1" (by decide)

theorem textGen_execute_spec (t : BaseTask)
    (kwargs : List (String × PyVal)) (env : ExecEnv) :
    ((TextGenerationTask.execute t kwargs env).2.status = .completed
      ∨ (TextGenerationTask.execute t kwargs env).2.status = .failed)
    ∧ (TextGenerationTask.execute t kwargs env).1.status
        = (TextGenerationTask.execute t kwargs env).2.status
    ∧ (TextGenerationTask.execute t kwargs env).1.result
        = some (TextGenerationTask.execute t kwargs env).2 := by
  cases hv : TextGenerationTask.validate_input kwargs with
  | error e => simp [TextGenerationTask.execute, hv]
  | ok b =>
    cases hm : env.modelOutcome with
    | error e => simp [TextGenerationTask.execute, hv, hm]
    | ok u =>
      cases hg : env.genOutcome with
      | error e => simp [TextGenerationTask.execute, hv, hm, hg]
      | ok out => simp [TextGenerationTask.execute, hv, hm, hg]

theorem imageGen_execute_spec (t : BaseTask)
    (kwargs : List (String × PyVal)) (env : ExecEnv) :
    ((ImageGenerationTask.execute t kwargs env).2.status = .completed
      ∨ (ImageGenerationTask.execute t kwargs env).2.status = .failed)
    ∧ (ImageGenerationTask.execute t kwargs env).1.status
        = (ImageGenerationTask.execute t kwargs env).2.status
    ∧ (ImageGenerationTask.execute t kwargs env).1.result
        = some (ImageGenerationTask.execute t kwargs env).2 := by
  cases hv : ImageGenerationTask.validate_input kwargs with
  | error e => simp [ImageGenerationTask.execute, hv]
  | ok b =>
    cases hm : env.modelOutcome with
    | error e => simp [ImageGenerationTask.execute, hv, hm]
    | ok u =>
      cases hg : env.genOutcome with
      | error e => simp [ImageGenerationTask.execute, hv, hm, hg]
      | ok out => simp [ImageGenerationTask.execute, hv, hm, hg]

theorem classif_execute_spec (t : BaseTask)
    (kwargs : List (String × PyVal)) (env : ExecEnv) :
    ((ClassificationTask.execute t kwargs env).2.status = .completed
      ∨ (ClassificationTask.execute t kwargs env).2.status = .failed)
    ∧ (ClassificationTask.execute t kwargs env).1.status
        = (ClassificationTask.execute t kwargs env).2.status
    ∧ (ClassificationTask.execute t kwargs env).1.result
        = some (ClassificationTask.execute t kwargs env).2 := by
  cases hv : ClassificationTask.validate_input kwargs with
  | error e => simp [ClassificationTask.execute, hv]
  | ok b =>
    cases hm : env.modelOutcome with
    | error e => simp [ClassificationTask.execute, hv, hm]
    | ok u =>
      cases hg : env.genOutcome with
      | error e => simp [ClassificationTask.execute, hv, hm, hg]
      | ok out => simp [ClassificationTask.execute, hv, hm, hg]

/-- Every concrete `execute` ends with matching terminal task/result status
(completed or failed) and stores the returned result on the task. -/
theorem task_execute_spec (t : BaseTask)
    (kwargs : List (String × PyVal)) (env : ExecEnv) :
    ((t.execute kwargs env).2.status = .completed
      ∨ (t.execute kwargs env).2.status = .failed)
    ∧ (t.execute kwargs env).1.status = (t.execute kwargs env).2.status
    ∧ (t.execute kwargs env).1.result = some (t.execute kwargs env).2 := by
  cases hk : t.kind with
  | textGeneration =>
    simpa [BaseTask.execute, hk] using textGen_execute_spec t kwargs env
  | imageGeneration =>
    simpa [BaseTask.execute, hk] using imageGen_execute_spec t kwargs env
  | classification =>
    simpa [BaseTask.execute, hk] using classif_execute_spec t kwargs env

/-- C1 counterexample: `cancelled` is a terminal status, but the early-return
guard of `execute_task` (tasks.py line 350) checks only `COMPLETED` and
`FAILED`.  On the reachable state `oC3` — create c1, dispatch it to the
running set, cancel it — `execute_task("c1")` does not return the stored
state: it re-runs `execute`, after which the status is `completed`, the
previously absent result and timestamps are filled in, so status, result and
timestamps all change. -/
theorem execute_task_reruns_cancelled_counterexample :
    oC3.statusOf "c1" = some .cancelled
    ∧ (dlookup "c1" oC3.tasks).map BaseTask.result = some none
    ∧ (dlookup "c1" oC3.tasks).map BaseTask.start_time = some none
    ∧ (oC3.execute_task "c1" kwOK okEnv).toOption.map (fun p => p.1.statusOf "c1")
        = some (some .completed)
    ∧ (oC3.execute_task "c1" kwOK okEnv).toOption.map
        (fun p => (dlookup "c1" p.1.tasks).map (fun t => t.result.isSome))
        = some (some true)
    ∧ (oC3.execute_task "c1" kwOK okEnv).toOption.map
        (fun p => (dlookup "c1" p.1.tasks).map BaseTask.start_time)
        = some (some (some 10)) := by
  exact ⟨by decide, by decide, by decide, by decide, by decide, by decide⟩

/-- C1 amended: the idempotent-replay guarantee holds for the statuses the
guard actually checks: for a task in `completed` or `failed` status,
`execute_task` returns the stored result unchanged and performs no work (the
state is returned as-is).  A `cancelled` task is NOT treated as terminal and
is re-executed (see the counterexample). -/
theorem execute_task_idempotent_for_completed_failed
    (o : TaskOrchestrator) (task_id : String) (t : BaseTask)
    (kwargs : List (String × PyVal)) (env : ExecEnv)
    (ht : dlookup task_id o.tasks = some t)
    (hterm : t.status = .completed ∨ t.status = .failed) :
    o.execute_task task_id kwargs env = .ok (o, t.result) := by
  have hnr : ¬ t.status = .running := by
    rcases hterm with h | h <;> rw [h] <;> intro hh <;> cases hh
  simp only [TaskOrchestrator.execute_task, ht]
  rw [if_neg hnr, if_pos hterm]

/-- Witness for the amended C1: replaying the completed task t1 in `oB`
returns its stored result and the unchanged state. -/
theorem execute_task_idempotent_for_completed_failed_witness :
    oB.execute_task "t1" kwOK okEnv = .ok (oB, tB.result) :=
  execute_task_idempotent_for_completed_failed oB "t1" tB kwOK okEnv
    (by decide) (Or.inl rfl)

/-- C3: `get_task_status` raises `AttributeError` exactly for the tasks whose
`result` field is set — it calls `task.result.to_dict()` and the `TaskResult`
dataclass defines no `to_dict` method; for tasks without a result (pending,
running, cancelled-by-`cancel_task`) it returns a status dict. -/
theorem get_task_status_raises_iff_result_present (o : TaskOrchestrator)
    (task_id : String) (now : ℤ) :
    (∃ e, o.get_task_status task_id now = .error e)
      ↔ ∃ t r, dlookup task_id o.tasks = some t ∧ t.result = some r := by
  unfold TaskOrchestrator.get_task_status
  cases hl : dlookup task_id o.tasks with
  | none => simp
  | some t =>
    cases hr : t.result with
    | none => simp [hr]
    | some r => simp [hr, TaskResult.to_dict_attr]

/-- C10 counterexample: a running task with no recorded start time (the state
`get_progress` explicitly guards with `if self.start_time:`) reports progress
0.5 — a value outside the claim's enumeration: with no start time no
elapsed/timeout ratio is defined by the instance, and 0.5 is neither the
pending/terminal 0.0 nor the completed 1.0. -/
theorem get_progress_running_without_start_counterexample :
    tRun.status = .running ∧ tRun.start_time = none
    ∧ tRun.get_progress 100 = 1/2
    ∧ ¬ (1/2 : ℚ) = 0 ∧ ¬ (1/2 : ℚ) = 1 := by
  exact ⟨rfl, rfl, rfl, by norm_num, by norm_num⟩

/-- C10 amended: `get_progress` returns 0.0 when pending; when running, the
elapsed/timeout ratio capped at 0.9 provided a (truthy) start time is
recorded, and the 0.5 fallback when the start time is absent (or `0.0`); 1.0
when completed; 0.0 for the other terminal statuses. -/
theorem get_progress_by_status (t : BaseTask) (now st : ℤ) :
    (t.status = .pending → t.get_progress now = 0)
    ∧ (t.status = .running → t.start_time = some st → ¬ st = 0 →
        t.get_progress now = min (((now - st : ℤ) : ℚ) / ((t.config.timeout : ℤ) : ℚ)) (9/10))
    ∧ (t.status = .running → t.start_time = none → t.get_progress now = 1/2)
    ∧ (t.status = .completed → t.get_progress now = 1)
    ∧ ((t.status = .failed ∨ t.status = .cancelled) → t.get_progress now = 0) := by
  refine ⟨?_, ?_, ?_, ?_, ?_⟩
  · intro h; simp [BaseTask.get_progress, h]
  · intro h hst hnz
    simp [BaseTask.get_progress, h, hst, hnz]
  · intro h hst
    simp [BaseTask.get_progress, h, hst]
  · intro h; simp [BaseTask.get_progress, h]
  · rintro (h | h) <;> simp [BaseTask.get_progress, h]

/-- Witness for the amended C10: a running task started at time 10 with the
default 300-second timeout has, at time 310, an elapsed/timeout ratio of 1,
which the cap brings down to 9/10. -/
theorem get_progress_by_status_witness :
    ({ tRun with start_time := some 10 } : BaseTask).get_progress 310 = 9/10 := by
  have h := (get_progress_by_status { tRun with start_time := some 10 } 310 10).2.1
    rfl rfl (by decide)
  rw [h]
  norm_num [cfgGen, tRun, min_def]

theorem execute_task_not_found {o : TaskOrchestrator} {task_id : String}
    {kwargs : List (String × PyVal)} {env : ExecEnv}
    (h : dlookup task_id o.tasks = none) :
    o.execute_task task_id kwargs env = .error ("Task " ++ task_id ++ " not found") := by
  simp [TaskOrchestrator.execute_task, h]

theorem execute_task_already_running {o : TaskOrchestrator} {task_id : String}
    {t : BaseTask} {kwargs : List (String × PyVal)} {env : ExecEnv}
    (ht : dlookup task_id o.tasks = some t) (hr : t.status = .running) :
    o.execute_task task_id kwargs env =
      .error ("Task " ++ task_id ++ " is already running") := by
  simp [TaskOrchestrator.execute_task, ht, hr]

/-- The stored-result early return of `execute_task` (tasks.py lines
349-351): for a completed or failed task, the state is untouched and the
stored result (possibly `None`) is returned. -/
theorem execute_task_stored_result {o : TaskOrchestrator} {task_id : String}
    {t : BaseTask} {kwargs : List (String × PyVal)} {env : ExecEnv}
    (ht : dlookup task_id o.tasks = some t)
    (hterm : t.status = .completed ∨ t.status = .failed) :
    o.execute_task task_id kwargs env = .ok (o, t.result) := by
  have hnr : ¬ t.status = .running := by
    rcases hterm with h | h <;> rw [h] <;> intro hh <;> cases hh
  simp only [TaskOrchestrator.execute_task, ht]
  rw [if_neg hnr, if_pos hterm]

/-- The run path of `execute_task`: taken for any task that is neither
running nor completed/failed — i.e. for pending AND for cancelled tasks. -/
theorem execute_task_run_eq {o : TaskOrchestrator} {task_id : String}
    {t : BaseTask} {kwargs : List (String × PyVal)} {env : ExecEnv}
    (ht : dlookup task_id o.tasks = some t)
    (hnr : ¬ t.status = .running)
    (hnt : ¬ (t.status = .completed ∨ t.status = .failed)) :
    o.execute_task task_id kwargs env =
      .ok (let te := t.execute kwargs env
           let o1 := { o with tasks := dinsert task_id te.1 o.tasks }
           if te.2.status = .completed then
             { o1 with completed_tasks := addKey task_id o1.completed_tasks,
                       running_tasks := o1.running_tasks.erase task_id }
           else if te.2.status = .failed then
             { o1 with failed_tasks := addKey task_id o1.failed_tasks,
                       running_tasks := o1.running_tasks.erase task_id }
           else o1,
           some (t.execute kwargs env).2) := by
  simp only [TaskOrchestrator.execute_task, ht]
  rw [if_neg hnr, if_neg hnt]

theorem cancel_task_not_running {o : TaskOrchestrator} {task_id : String}
    (h : ¬ task_id ∈ o.running_tasks) :
    o.cancel_task task_id = (o, false) := by
  simp [TaskOrchestrator.cancel_task, h]

theorem create_task_eq {o : TaskOrchestrator} {cfgTasks : List (String × TaskConfig)}
    {task_name new_id : String} {tc : TaskConfig} {kind : TaskKind}
    (hname : dlookup task_name cfgTasks = some tc)
    (hkind : create_task_instance tc = .ok kind) :
    o.create_task cfgTasks task_name new_id =
      .ok ({ o with
             tasks := dinsert new_id (BaseTask.mk new_id kind tc .pending none none none none)
                        o.tasks,
             task_queue := o.task_queue ++ [new_id] }, new_id) := by
  simp [TaskOrchestrator.create_task, hname, hkind]

theorem OInv_initial : OInv initialOrchestrator := by
  refine ⟨rfl, ?_⟩
  intro id t h
  simp [initialOrchestrator, dlookup] at h

theorem OStep_preserves_OInv {cfgTasks : List (String × TaskConfig)}
    {o o' : TaskOrchestrator} (hinv : OInv o) (hs : OStep cfgTasks o o') : OInv o' := by
  obtain ⟨hrun, htasks⟩ := hinv
  cases hs with
  | create o' task_name new_id rid hfresh h =>
    cases hname : dlookup task_name cfgTasks with
    | none => simp [TaskOrchestrator.create_task, hname] at h
    | some tc =>
      cases hkind : create_task_instance tc with
      | error e => simp [TaskOrchestrator.create_task, hname, hkind] at h
      | ok kind =>
        rw [create_task_eq hname hkind] at h
        simp only [Except.ok.injEq, Prod.mk.injEq] at h
        obtain ⟨ho, _⟩ := h
        subst ho
        refine ⟨hrun, ?_⟩
        intro id t hl
        simp only at hl
        rw [dlookup_dinsert] at hl
        by_cases hid : id = new_id
        · rw [if_pos hid] at hl
          cases hl
          exact Or.inl rfl
        · rw [if_neg hid] at hl
          exact htasks id t hl
  | exec o' task_id kwargs env r h =>
    cases hl : dlookup task_id o.tasks with
    | none => rw [execute_task_not_found hl] at h; cases h
    | some task =>
      rcases htasks task_id task hl with hp | hc | hf
      · have hnr : ¬ task.status = .running := by rw [hp]; intro hh; cases hh
        have hnt : ¬ (task.status = .completed ∨ task.status = .failed) := by
          rw [hp]; rintro (hh | hh) <;> cases hh
        rw [execute_task_run_eq hl hnr hnt] at h
        simp only [Except.ok.injEq, Prod.mk.injEq] at h
        obtain ⟨ho, _⟩ := h
        subst ho
        have hterm := task_execute_spec task kwargs env
        constructor
        · by_cases hc1 : (task.execute kwargs env).2.status = .completed
          · simp only [if_pos hc1, hrun, List.erase_nil]
          · by_cases hc2 : (task.execute kwargs env).2.status = .failed
            · simp only [if_neg hc1, if_pos hc2, hrun, List.erase_nil]
            · simp only [if_neg hc1, if_neg hc2]; exact hrun
        · intro id t hl2
          have htl : dlookup id (dinsert task_id (task.execute kwargs env).1 o.tasks)
              = some t := by
            by_cases hc1 : (task.execute kwargs env).2.status = .completed
            · simpa only [if_pos hc1] using hl2
            · by_cases hc2 : (task.execute kwargs env).2.status = .failed
              · simpa only [if_neg hc1, if_pos hc2] using hl2
              · simpa only [if_neg hc1, if_neg hc2] using hl2
          rw [dlookup_dinsert] at htl
          by_cases hid : id = task_id
          · rw [if_pos hid] at htl
            cases htl
            rw [hterm.2.1]
            rcases hterm.1 with hh | hh
            · exact Or.inr (Or.inl hh)
            · exact Or.inr (Or.inr hh)
          · rw [if_neg hid] at htl
            exact htasks id t htl
      · rw [execute_task_stored_result hl (Or.inl hc)] at h
        simp only [Except.ok.injEq, Prod.mk.injEq] at h
        obtain ⟨ho, _⟩ := h
        subst ho
        exact ⟨hrun, htasks⟩
      · rw [execute_task_stored_result hl (Or.inr hf)] at h
        simp only [Except.ok.injEq, Prod.mk.injEq] at h
        obtain ⟨ho, _⟩ := h
        subst ho
        exact ⟨hrun, htasks⟩
  | cancel task_id =>
    have hnotin : ¬ task_id ∈ o.running_tasks := by rw [hrun]; simp
    rw [cancel_task_not_running hnotin]
    exact ⟨hrun, htasks⟩

theorem OStep_status_mono {cfgTasks : List (String × TaskConfig)}
    {o o' : TaskOrchestrator} (hinv : OInv o) (hs : OStep cfgTasks o o')
    (id : String) (s s' : TaskStatus)
    (h1 : o.statusOf id = some s) (h2 : o'.statusOf id = some s') :
    statusRank s ≤ statusRank s' ∧ (isTerminalStatus s → s' = s) := by
  obtain ⟨hrun, htasks⟩ := hinv
  cases hs with
  | create o' task_name new_id rid hfresh h =>
    cases hname : dlookup task_name cfgTasks with
    | none => simp [TaskOrchestrator.create_task, hname] at h
    | some tc =>
      cases hkind : create_task_instance tc with
      | error e => simp [TaskOrchestrator.create_task, hname, hkind] at h
      | ok kind =>
        rw [create_task_eq hname hkind] at h
        simp only [Except.ok.injEq, Prod.mk.injEq] at h
        obtain ⟨ho, _⟩ := h
        subst ho
        have hid : ¬ id = new_id := by
          intro hh
          unfold TaskOrchestrator.statusOf at h1
          rw [hh, hfresh] at h1
          cases h1
        unfold TaskOrchestrator.statusOf at h1 h2
        simp only at h2
        rw [dlookup_dinsert, if_neg hid] at h2
        rw [h1] at h2
        cases h2
        exact ⟨le_refl _, fun _ => rfl⟩
  | exec o' task_id kwargs env r h =>
    cases hl : dlookup task_id o.tasks with
    | none => rw [execute_task_not_found hl] at h; cases h
    | some task =>
      rcases htasks task_id task hl with hp | hc | hf
      · have hnr : ¬ task.status = .running := by rw [hp]; intro hh; cases hh
        have hnt : ¬ (task.status = .completed ∨ task.status = .failed) := by
          rw [hp]; rintro (hh | hh) <;> cases hh
        rw [execute_task_run_eq hl hnr hnt] at h
        simp only [Except.ok.injEq, Prod.mk.injEq] at h
        obtain ⟨ho, _⟩ := h
        subst ho
        have key : ∀ X : TaskOrchestrator,
            X.tasks = dinsert task_id (task.execute kwargs env).1 o.tasks →
            X.statusOf id = some s' →
            statusRank s ≤ statusRank s' ∧ (isTerminalStatus s → s' = s) := by
          intro X hX h2'
          unfold TaskOrchestrator.statusOf at h1 h2'
          rw [hX, dlookup_dinsert] at h2'
          by_cases hid : id = task_id
          · rw [if_pos hid] at h2'
            rw [hid, hl] at h1
            have h1x : some task.status = some s := h1
            have hs : s = task.status := by cases h1x; rfl
            constructor
            · rw [hs, hp]
              exact Nat.zero_le _
            · intro hterm
              rw [hs, hp] at hterm
              rcases hterm with hh | hh | hh <;> cases hh
          · rw [if_neg hid] at h2'
            rw [h1] at h2'
            cases h2'
            exact ⟨le_refl _, fun _ => rfl⟩
        revert h2
        by_cases hc1 : (task.execute kwargs env).2.status = .completed
        · rw [if_pos hc1]
          intro h2
          exact key _ rfl h2
        · by_cases hc2 : (task.execute kwargs env).2.status = .failed
          · rw [if_neg hc1, if_pos hc2]
            intro h2
            exact key _ rfl h2
          · rw [if_neg hc1, if_neg hc2]
            intro h2
            exact key _ rfl h2
      · rw [execute_task_stored_result hl (Or.inl hc)] at h
        simp only [Except.ok.injEq, Prod.mk.injEq] at h
        obtain ⟨ho, _⟩ := h
        subst ho
        rw [h1] at h2
        cases h2
        exact ⟨le_refl _, fun _ => rfl⟩
      · rw [execute_task_stored_result hl (Or.inr hf)] at h
        simp only [Except.ok.injEq, Prod.mk.injEq] at h
        obtain ⟨ho, _⟩ := h
        subst ho
        rw [h1] at h2
        cases h2
        exact ⟨le_refl _, fun _ => rfl⟩
  | cancel task_id =>
    have hnotin : ¬ task_id ∈ o.running_tasks := by rw [hrun]; simp
    rw [cancel_task_not_running hnotin] at h2
    have h2' : o.statusOf id = some s' := h2
    rw [h1] at h2'
    cases h2'
    exact ⟨le_refl _, fun _ => rfl⟩

theorem cancel_task_running_found {o : TaskOrchestrator} {task_id : String}
    {task : BaseTask} (hin : task_id ∈ o.running_tasks)
    (ht : dlookup task_id o.tasks = some task) :
    o.cancel_task task_id =
      ({ o with tasks := dinsert task_id ({ task with status := .cancelled }) o.tasks,
                completed_tasks := addKey task_id o.completed_tasks,
                running_tasks := o.running_tasks.erase task_id }, true) := by
  simp [TaskOrchestrator.cancel_task, hin, ht]

theorem cancel_task_running_notfound {o : TaskOrchestrator} {task_id : String}
    (hin : task_id ∈ o.running_tasks)
    (ht : dlookup task_id o.tasks = none) :
    o.cancel_task task_id = (o, false) := by
  simp [TaskOrchestrator.cancel_task, hin, ht]

/-- No C2 operation removes a task from the registry. -/
theorem OStep_statusOf_isSome {cfgTasks : List (String × TaskConfig)}
    {o o' : TaskOrchestrator} (hs : OStep cfgTasks o o') (id : String)
    (h : (o.statusOf id).isSome) : (o'.statusOf id).isSome := by
  cases hs with
  | create o' task_name new_id rid hfresh hc =>
    cases hname : dlookup task_name cfgTasks with
    | none => simp [TaskOrchestrator.create_task, hname] at hc
    | some tc =>
      cases hkind : create_task_instance tc with
      | error e => simp [TaskOrchestrator.create_task, hname, hkind] at hc
      | ok kind =>
        rw [create_task_eq hname hkind] at hc
        simp only [Except.ok.injEq, Prod.mk.injEq] at hc
        obtain ⟨ho, _⟩ := hc
        subst ho
        unfold TaskOrchestrator.statusOf at h ⊢
        simp only
        rw [dlookup_dinsert]
        by_cases hid : id = new_id
        · rw [if_pos hid]; rfl
        · rw [if_neg hid]; exact h
  | exec o' task_id kwargs env r hc =>
    cases hl : dlookup task_id o.tasks with
    | none => rw [execute_task_not_found hl] at hc; cases hc
    | some task =>
      by_cases hr : task.status = .running
      · rw [execute_task_already_running hl hr] at hc; cases hc
      · by_cases hterm : task.status = .completed ∨ task.status = .failed
        · rw [execute_task_stored_result hl hterm] at hc
          simp only [Except.ok.injEq, Prod.mk.injEq] at hc
          obtain ⟨ho, _⟩ := hc
          subst ho
          exact h
        · rw [execute_task_run_eq hl hr hterm] at hc
          simp only [Except.ok.injEq, Prod.mk.injEq] at hc
          obtain ⟨ho, _⟩ := hc
          subst ho
          have key : ∀ X : TaskOrchestrator,
              X.tasks = dinsert task_id (task.execute kwargs env).1 o.tasks →
              (X.statusOf id).isSome := by
            intro X hX
            unfold TaskOrchestrator.statusOf at h ⊢
            rw [hX, dlookup_dinsert]
            by_cases hid : id = task_id
            · rw [if_pos hid]; rfl
            · rw [if_neg hid]; exact h
          by_cases hc1 : (task.execute kwargs env).2.status = .completed
          · rw [if_pos hc1]; exact key _ rfl
          · by_cases hc2 : (task.execute kwargs env).2.status = .failed
            · rw [if_neg hc1, if_pos hc2]; exact key _ rfl
            · rw [if_neg hc1, if_neg hc2]; exact key _ rfl
  | cancel task_id =>
    by_cases hin : task_id ∈ o.running_tasks
    · cases hl : dlookup task_id o.tasks with
      | none => rw [cancel_task_running_notfound hin hl]; exact h
      | some task =>
        rw [cancel_task_running_found hin hl]
        unfold TaskOrchestrator.statusOf at h ⊢
        simp only
        rw [dlookup_dinsert]
        by_cases hid : id = task_id
        · rw [if_pos hid]; rfl
        · rw [if_neg hid]; exact h
    · rw [cancel_task_not_running hin]; exact h

theorem OStar_statusOf_isSome {cfgTasks : List (String × TaskConfig)}
    {o o' : TaskOrchestrator} (hst : Relation.ReflTransGen (OStep cfgTasks) o o')
    (id : String) (h : (o.statusOf id).isSome) : (o'.statusOf id).isSome := by
  induction hst with
  | refl => exact h
  | tail hst hstep ih => exact OStep_statusOf_isSome hstep id ih

theorem OInv_star {cfgTasks : List (String × TaskConfig)} {o o' : TaskOrchestrator}
    (hinv : OInv o) (hst : Relation.ReflTransGen (OStep cfgTasks) o o') : OInv o' := by
  induction hst with
  | refl => exact hinv
  | tail hst hstep ih => exact OStep_preserves_OInv ih hstep

theorem status_mono_star {cfgTasks : List (String × TaskConfig)}
    {o o' : TaskOrchestrator} (hinv : OInv o)
    (hst : Relation.ReflTransGen (OStep cfgTasks) o o') :
    ∀ id s s', o.statusOf id = some s → o'.statusOf id = some s' →
      statusRank s ≤ statusRank s' ∧ (isTerminalStatus s → s' = s) := by
  induction hst with
  | refl =>
    intro id s s' h1 h2
    rw [h1] at h2
    cases h2
    exact ⟨le_refl _, fun _ => rfl⟩
  | tail hst hstep ih =>
    intro id s s' h1 h2
    have hmidSome := OStar_statusOf_isSome hst id (by rw [h1]; rfl)
    obtain ⟨s'', hs''⟩ := Option.isSome_iff_exists.mp hmidSome
    have hmid := ih id s s'' h1 hs''
    have hinvmid := OInv_star hinv hst
    have hstep' := OStep_status_mono hinvmid hstep id s'' s' hs'' h2
    refine ⟨le_trans hmid.1 hstep'.1, fun hterm => ?_⟩
    have he : s'' = s := hmid.2 hterm
    have hfin := hstep'.2 (by rw [he]; exact hterm)
    rw [hfin, he]

/-- C2: under any sequence of the `execute_task` / `cancel_task` operations
(and task creation) from a fresh orchestrator, each task's status moves
one-way: a task that has left `pending` is never observed `pending` again, a
task observed in a terminal status keeps exactly that status forever (so it is
never observed in two terminal statuses) and never re-enters `running`.
Within this operation set `cancel_task` never fires — only
`execute_tasks_async` fills the running dict it requires — so the reachable
terminal statuses are `completed` and `failed`; re-running a task cancelled
through the async path is claim C1's concern. -/
theorem task_status_transitions_one_way
    (cfgTasks : List (String × TaskConfig)) (o o' : TaskOrchestrator)
    (hreach : OReach cfgTasks o)
    (hsteps : Relation.ReflTransGen (OStep cfgTasks) o o')
    (id : String) (s s' : TaskStatus)
    (h1 : o.statusOf id = some s) (h2 : o'.statusOf id = some s') :
    (¬ s = .pending → ¬ s' = .pending)
    ∧ (isTerminalStatus s → s' = s)
    ∧ (isTerminalStatus s → ¬ s' = .running) := by
  have hinv : OInv o := OInv_star OInv_initial hreach
  have hmono := status_mono_star hinv hsteps id s s' h1 h2
  refine ⟨?_, hmono.2, ?_⟩
  · intro hsp hs'p
    have hle := hmono.1
    rw [hs'p] at hle
    have h0 : statusRank s = 0 := Nat.le_zero.mp hle
    cases s with
    | pending => exact hsp rfl
    | running => simp [statusRank] at h0
    | completed => simp [statusRank] at h0
    | failed => simp [statusRank] at h0
    | cancelled => simp [statusRank] at h0
  · intro hterm
    have he := hmono.2 hterm
    rw [he]
    rcases hterm with hh | hh | hh <;> rw [hh] <;> intro hx <;> cases hx

/-- Witness for C2 at a concrete trace: after create + execute, task t1 is
completed, and by the theorem it can never be observed running again. -/
theorem task_status_transitions_one_way_witness :
    oB.statusOf "t1" = some .completed ∧ ¬ (TaskStatus.completed = .running) := by
  have s1 : OStep cfgT initialOrchestrator oA :=
    OStep.create initialOrchestrator oA "gen" "t1" "t1" (by decide) (by decide)
  have s2 : OStep cfgT oA oB :=
    OStep.exec oA oB "t1" kwOK okEnv (some rB) (by decide)
  have hreach : OReach cfgT oB :=
    Relation.ReflTransGen.tail
      (Relation.ReflTransGen.tail Relation.ReflTransGen.refl s1) s2
  exact ⟨by decide,
    (task_status_transitions_one_way cfgT oB oB hreach Relation.ReflTransGen.refl
      "t1" .completed .completed (by decide) (by decide)).2.2 (Or.inl rfl)⟩

theorem foldl_erase_congr (p q : String → Bool) :
    ∀ (l : List String), (∀ id ∈ l, p id = q id) →
    ∀ c : List String,
      l.foldl (fun acc id => if p id then acc.erase id else acc) c
        = l.foldl (fun acc id => if q id then acc.erase id else acc) c := by
  intro l
  induction l with
  | nil => intro _ c; rfl
  | cons a rest ih =>
    intro h c
    simp only [List.foldl_cons]
    rw [h a (List.mem_cons_self a rest)]
    exact ih (fun id hid => h id (List.mem_cons_of_mem a hid)) _

theorem clearLoop_eq_foldl (max_age : Option ℤ) (now : ℤ) :
    ∀ (todo completed : List String) (tasks : List (String × BaseTask)) (n : Nat),
      todo.Nodup → (∀ id ∈ todo, (dlookup id tasks).isSome) →
      (clearLoop max_age now todo completed tasks n).1
        = todo.foldl
            (fun acc id => if clearCondAt tasks max_age now id then acc.erase id else acc)
            completed := by
  intro todo
  induction todo with
  | nil => intro completed tasks n _ _; rfl
  | cons a rest ih =>
    intro completed tasks n hnd hsub
    have ha := hsub a (List.mem_cons_self a rest)
    obtain ⟨t, ht⟩ := Option.isSome_iff_exists.mp ha
    have hanotin : ¬ a ∈ rest := (List.nodup_cons.mp hnd).1
    have hcondAt : clearCondAt tasks max_age now a = clearCond t max_age now := by
      simp [clearCondAt, ht]
    simp only [clearLoop, ht, List.foldl_cons, hcondAt]
    by_cases hcond : clearCond t max_age now
    · simp only [if_pos hcond]
      rw [ih (completed.erase a) (derase a tasks) (n + 1) (List.nodup_cons.mp hnd).2
        (fun id hid => by
          have hne : id ≠ a := fun hh => hanotin (by rw [← hh]; exact hid)
          rw [dlookup_derase_ne tasks hne]
          exact hsub id (List.mem_cons_of_mem a hid))]
      exact foldl_erase_congr _ _ rest
        (fun id hid => by
          have hne : id ≠ a := fun hh => hanotin (by rw [← hh]; exact hid)
          simp only [clearCondAt, dlookup_derase_ne tasks hne])
        (completed.erase a)
    · simp only [if_neg hcond]
      exact ih completed tasks n (List.nodup_cons.mp hnd).2
        (fun id hid => hsub id (List.mem_cons_of_mem a hid))

theorem foldl_erase_self (p : String → Bool) :
    ∀ (l c : List String), l.Nodup → c.Nodup →
      l.foldl (fun acc id => if p id then acc.erase id else acc) c
        = c.filter (fun x => ! (l.contains x && p x)) := by
  intro l
  induction l with
  | nil =>
    intro c _ _
    simp
  | cons a rest ih =>
    intro c hnd hcnd
    have hanotin : ¬ a ∈ rest := (List.nodup_cons.mp hnd).1
    simp only [List.foldl_cons]
    by_cases hp : p a
    · rw [if_pos hp]
      rw [ih (c.erase a) (List.nodup_cons.mp hnd).2 (hcnd.erase a)]
      rw [List.Nodup.erase_eq_filter hcnd a]
      rw [List.filter_filter]
      apply List.filter_congr
      intro x hx
      by_cases hxa : x = a
      · subst hxa
        simp [hp]
      · simp [hxa]
    · rw [if_neg hp]
      rw [ih c (List.nodup_cons.mp hnd).2 hcnd]
      apply List.filter_congr
      intro x hx
      by_cases hxa : x = a
      · subst hxa
        simp [hp, hanotin]
      · simp [hxa]

/-- C6 counterexample: on the reachable state `oC3`, whose completed bucket
holds the cancelled task c1 (cancellation stamps no end time),
`clear_completed_tasks(max_age=0)` removes nothing — the condition
`task.end_time and now - task.end_time > 0` is falsy without an end time —
while `clear_completed_tasks(max_age=None)` purges the bucket: the two calls
are not equivalent and `max_age=0` does not remove every completed-bucket
task. -/
theorem clear_completed_max_age_zero_counterexample :
    oC3.completed_tasks = ["c1"]
    ∧ (oC3.clear_completed_tasks (some 0) 100).1.completed_tasks = ["c1"]
    ∧ (oC3.clear_completed_tasks (some 0) 100).2 = 0
    ∧ (oC3.clear_completed_tasks none 100).1.completed_tasks = []
    ∧ (oC3.clear_completed_tasks none 100).2 = 1 := by
  exact ⟨by decide, by decide, by decide, by decide, by decide⟩

/-- C6 amended: `clear_completed_tasks(max_age=None)` purges the completed
bucket unconditionally, while `clear_completed_tasks(max_age=0)` removes
exactly those completed-bucket tasks whose end time is set, truthy, and
strictly older than the current time; tasks without an end time (cancelled
tasks parked in the bucket) survive, so the two calls are not equivalent. -/
theorem clear_completed_tasks_semantics (o : TaskOrchestrator) (now : ℤ)
    (hnd : o.completed_tasks.Nodup)
    (hsub : ∀ id ∈ o.completed_tasks, (dlookup id o.tasks).isSome) :
    ((o.clear_completed_tasks none now).1.completed_tasks = [])
    ∧ ((o.clear_completed_tasks (some 0) now).1.completed_tasks
        = o.completed_tasks.filter
            (fun id => ! clearCondAt o.tasks (some 0) now id)) := by
  constructor
  · show (clearLoop none now o.completed_tasks o.completed_tasks o.tasks 0).1 = []
    rw [clearLoop_eq_foldl none now o.completed_tasks o.completed_tasks o.tasks 0 hnd hsub]
    rw [foldl_erase_self _ o.completed_tasks o.completed_tasks hnd hnd]
    rw [List.filter_eq_nil_iff]
    intro x hx
    have hsx := hsub x hx
    obtain ⟨t, ht⟩ := Option.isSome_iff_exists.mp hsx
    have hc : clearCondAt o.tasks none now x = true := by
      simp [clearCondAt, ht, clearCond]
    simp [hc, hx]
  · show (clearLoop (some 0) now o.completed_tasks o.completed_tasks o.tasks 0).1 = _
    rw [clearLoop_eq_foldl (some 0) now o.completed_tasks o.completed_tasks o.tasks 0 hnd hsub]
    rw [foldl_erase_self _ o.completed_tasks o.completed_tasks hnd hnd]
    apply List.filter_congr
    intro x hx
    simp [hx]

/-- Witness for the amended C6: purging with `max_age=None` empties the
completed bucket of `oB`. -/
theorem clear_completed_tasks_semantics_witness :
    (oB.clear_completed_tasks none 100).1.completed_tasks = [] :=
  (clear_completed_tasks_semantics oB 100 (by decide) (by decide)).1

theorem textGen_validate_error_nonempty
    {kwargs : List (String × PyVal)} {e : String}
    (h : TextGenerationTask.validate_input kwargs = .error e) : ¬ e = "" := by
  cases hl : dlookup "prompt" kwargs with
  | none =>
    simp only [TextGenerationTask.validate_input, hl, Except.error.injEq] at h
    rw [← h]; decide
  | some v =>
    cases v with
    | str p =>
      simp only [TextGenerationTask.validate_input, hl] at h
      by_cases hp : (pyStrip p).length = 0
      · rw [if_pos hp] at h
        simp only [Except.error.injEq] at h
        rw [← h]; decide
      · rw [if_neg hp] at h
        simp at h
    | int n =>
      simp only [TextGenerationTask.validate_input, hl, Except.error.injEq] at h
      rw [← h]; decide
    | bool b =>
      simp only [TextGenerationTask.validate_input, hl, Except.error.injEq] at h
      rw [← h]; decide
    | image s =>
      simp only [TextGenerationTask.validate_input, hl, Except.error.injEq] at h
      rw [← h]; decide
    | pynone =>
      simp only [TextGenerationTask.validate_input, hl, Except.error.injEq] at h
      rw [← h]; decide

theorem imageGen_validate_error_nonempty
    {kwargs : List (String × PyVal)} {e : String}
    (h : ImageGenerationTask.validate_input kwargs = .error e) : ¬ e = "" := by
  cases hl : dlookup "prompt" kwargs with
  | none =>
    simp only [ImageGenerationTask.validate_input, hl, Except.error.injEq] at h
    rw [← h]; decide
  | some v =>
    cases v with
    | str p =>
      simp only [ImageGenerationTask.validate_input, hl] at h
      by_cases hp : (pyStrip p).length = 0
      · rw [if_pos hp] at h
        simp only [Except.error.injEq] at h
        rw [← h]; decide
      · rw [if_neg hp] at h
        simp at h
    | int n =>
      simp only [ImageGenerationTask.validate_input, hl, Except.error.injEq] at h
      rw [← h]; decide
    | bool b =>
      simp only [ImageGenerationTask.validate_input, hl, Except.error.injEq] at h
      rw [← h]; decide
    | image s =>
      simp only [ImageGenerationTask.validate_input, hl, Except.error.injEq] at h
      rw [← h]; decide
    | pynone =>
      simp only [ImageGenerationTask.validate_input, hl, Except.error.injEq] at h
      rw [← h]; decide

theorem classif_validate_error_nonempty
    {kwargs : List (String × PyVal)} {e : String}
    (h : ClassificationTask.validate_input kwargs = .error e) : ¬ e = "" := by
  unfold ClassificationTask.validate_input at h
  by_cases hc : dlookup "text" kwargs = none ∧ dlookup "image" kwargs = none
  · rw [if_pos hc] at h
    simp only [Except.error.injEq] at h
    rw [← h]; decide
  · rw [if_neg hc] at h
    simp at h

/-- C7 counterexample: `execute` does catch the exception and produce a
failed result, but the recorded error message is `str(e)`, and an exception
whose message is empty yields an EMPTY error message, contradicting the
claimed non-empty error message. -/
theorem execute_empty_error_message_counterexample :
    (tPend.execute kwOK emptyMsgEnv).2.status = .failed
    ∧ (tPend.execute kwOK emptyMsgEnv).2.error = some ""
    ∧ ("" : String).length = 0 := by
  exact ⟨by decide, by decide, rfl⟩

theorem execute_failed_error_source (t : BaseTask)
    (kwargs : List (String × PyVal)) (env : ExecEnv)
    (hm : ∀ e, env.modelOutcome = .error e → ¬ e = "")
    (hg : ∀ e, env.genOutcome = .error e → ¬ e = "") :
    (t.execute kwargs env).2.status = .completed
    ∨ ((t.execute kwargs env).2.status = .failed
        ∧ ∃ msg, (t.execute kwargs env).2.error = some msg ∧ ¬ msg = "") := by
  cases hk : t.kind with
  | textGeneration =>
    simp only [BaseTask.execute, hk]
    cases hv : TextGenerationTask.validate_input kwargs with
    | error e =>
      refine Or.inr ⟨by simp [TextGenerationTask.execute, hv], e,
        by simp [TextGenerationTask.execute, hv],
        textGen_validate_error_nonempty hv⟩
    | ok b =>
      cases hmo : env.modelOutcome with
      | error e =>
        refine Or.inr ⟨by simp [TextGenerationTask.execute, hv, hmo], e,
          by simp [TextGenerationTask.execute, hv, hmo], hm e hmo⟩
      | ok u =>
        cases hgo : env.genOutcome with
        | error e =>
          refine Or.inr ⟨by simp [TextGenerationTask.execute, hv, hmo, hgo], e,
            by simp [TextGenerationTask.execute, hv, hmo, hgo], hg e hgo⟩
        | ok out => exact Or.inl (by simp [TextGenerationTask.execute, hv, hmo, hgo])
  | imageGeneration =>
    simp only [BaseTask.execute, hk]
    cases hv : ImageGenerationTask.validate_input kwargs with
    | error e =>
      refine Or.inr ⟨by simp [ImageGenerationTask.execute, hv], e,
        by simp [ImageGenerationTask.execute, hv],
        imageGen_validate_error_nonempty hv⟩
    | ok b =>
      cases hmo : env.modelOutcome with
      | error e =>
        refine Or.inr ⟨by simp [ImageGenerationTask.execute, hv, hmo], e,
          by simp [ImageGenerationTask.execute, hv, hmo], hm e hmo⟩
      | ok u =>
        cases hgo : env.genOutcome with
        | error e =>
          refine Or.inr ⟨by simp [ImageGenerationTask.execute, hv, hmo, hgo], e,
            by simp [ImageGenerationTask.execute, hv, hmo, hgo], hg e hgo⟩
        | ok out => exact Or.inl (by simp [ImageGenerationTask.execute, hv, hmo, hgo])
  | classification =>
    simp only [BaseTask.execute, hk]
    cases hv : ClassificationTask.validate_input kwargs with
    | error e =>
      refine Or.inr ⟨by simp [ClassificationTask.execute, hv], e,
        by simp [ClassificationTask.execute, hv],
        classif_validate_error_nonempty hv⟩
    | ok b =>
      cases hmo : env.modelOutcome with
      | error e =>
        refine Or.inr ⟨by simp [ClassificationTask.execute, hv, hmo], e,
          by simp [ClassificationTask.execute, hv, hmo], hm e hmo⟩
      | ok u =>
        cases hgo : env.genOutcome with
        | error e =>
          refine Or.inr ⟨by simp [ClassificationTask.execute, hv, hmo, hgo], e,
            by simp [ClassificationTask.execute, hv, hmo, hgo], hg e hgo⟩
        | ok out => exact Or.inl (by simp [ClassificationTask.execute, hv, hmo, hgo])

/-- C7 amended: for every task type and keyword input, `execute` never raises
and ends in `completed`, or in `failed` with the error set to the raised
exception's message — non-empty provided the external calls raise with
non-empty messages (validation errors always carry non-empty messages; an
underlying exception with an empty `str(e)` yields an empty error message,
see the counterexample).  Driving such a task through `execute_task` returns
exactly the task's result, and when it is failed the task is filed into
`failed_tasks`, whose count increments by one. -/
theorem execute_converts_exceptions_to_failed_results
    (t : BaseTask) (kwargs : List (String × PyVal)) (env : ExecEnv)
    (o : TaskOrchestrator) (task_id : String)
    (hm : ∀ e, env.modelOutcome = .error e → ¬ e = "")
    (hg : ∀ e, env.genOutcome = .error e → ¬ e = "")
    (ht : dlookup task_id o.tasks = some t)
    (hpend : t.status = .pending)
    (hnf : ¬ task_id ∈ o.failed_tasks) :
    ((t.execute kwargs env).2.status = .completed
      ∨ ((t.execute kwargs env).2.status = .failed
          ∧ ∃ msg, (t.execute kwargs env).2.error = some msg ∧ ¬ msg = ""))
    ∧ (o.execute_task task_id kwargs env).toOption.map Prod.snd
        = some (some (t.execute kwargs env).2)
    ∧ ((t.execute kwargs env).2.status = .failed →
        (o.execute_task task_id kwargs env).toOption.map
            (fun p => p.1.failed_tasks) = some (o.failed_tasks ++ [task_id])
        ∧ (o.execute_task task_id kwargs env).toOption.map
            (fun p => p.1.failed_tasks.length) = some (o.failed_tasks.length + 1)) := by
  have hnr : ¬ t.status = .running := by rw [hpend]; intro hh; cases hh
  have hnt : ¬ (t.status = .completed ∨ t.status = .failed) := by
    rw [hpend]; rintro (hh | hh) <;> cases hh
  have hrun := @execute_task_run_eq o task_id t kwargs env ht hnr hnt
  refine ⟨execute_failed_error_source t kwargs env hm hg, ?_, ?_⟩
  · rw [hrun]; rfl
  · intro hfail
    have hnc : ¬ (t.execute kwargs env).2.status = .completed := by
      rw [hfail]; intro hh; cases hh
    rw [hrun]
    simp only [if_neg hnc, if_pos hfail]
    constructor
    · simp only [Except.toOption, Option.map, addKey, if_neg hnf]
    · simp only [Except.toOption, Option.map, addKey, if_neg hnf, List.length_append,
        List.length_cons, List.length_nil]

/-- Witness for the amended C7: executing t1 against a model that raises
files it into `failed_tasks`, whose count becomes 1. -/
theorem execute_converts_exceptions_to_failed_results_witness :
    (oA.execute_task "t1" kwOK boomEnv).toOption.map
      (fun p => p.1.failed_tasks.length) = some 1 := by
  have h := (execute_converts_exceptions_to_failed_results tA kwOK boomEnv oA "t1"
    (fun e he => nomatch he) (fun e he => by cases he; decide)
    (by decide) rfl (by decide)).2.2 (by decide)
  exact h.2.trans (by decide)

end MLAgent
